import Mathlib

/-!
# Verification of the OpenTTD_RL string formatting and encoding engine

Shallow embedding of the string subsystem in `src/src/strings.cpp`:
the parameter store (`StringParameters`), the plural rule table
(`DeterminePluralForm`), the choice-block selection (`ParseStringChoice`,
`SkipStringChoice`), the numeric formatters (`FormatNumber`, `FormatBytes`),
the template interpreter (`FormatString`) restricted to the control codes the
verified claims exercise, and the encoded-string codec
(`GetEncodedStringWithArgs`, `DecodeEncodedString`,
`EncodedString::ReplaceParam`, `EncodedString::GetDecodedString`).

Strings are modelled as lists of code points (`List Nat`); the UTF-8 byte
layer of `StringConsumer` and `StringBuilder` is abstracted away: one list
element corresponds to one decoded code point or one raw byte operand.

The concrete numeric values of the string control codes live in
`table/control_codes.h`, which is not part of the sources; distinct
placeholder values in the private-use range starting at 0xE000 are used, as
the program logic depends only on their distinctness and on the
`SCC_CONTROL_START ..= SCC_CONTROL_END` range membership.
-/

namespace Strings

/-! ## Control code constants

Modelled from the spec: the control code table (`table/control_codes.h`) is
not in the sources; codes are reserved markers in a closed set. Values are
distinct placeholders in the documented control range. -/

def SCC_CONTROL_START : Nat := 0xE000
def SCC_CONTROL_END : Nat := 0xE0FF

def SCC_ENCODED : Nat := 0xE000
def SCC_ENCODED_INTERNAL : Nat := 0xE001
def SCC_ENCODED_NUMERIC : Nat := 0xE002
def SCC_ENCODED_STRING : Nat := 0xE003
def SCC_RECORD_SEPARATOR : Nat := 0xE004
def SCC_ARG_INDEX : Nat := 0xE005
def SCC_PLURAL_LIST : Nat := 0xE006
def SCC_GENDER_LIST : Nat := 0xE007
def SCC_GENDER_INDEX : Nat := 0xE008
def SCC_RAW_STRING_POINTER : Nat := 0xE009
def SCC_COMMA : Nat := 0xE00A
def SCC_NUM : Nat := 0xE00B
def SCC_HEX : Nat := 0xE00C
def SCC_BYTES : Nat := 0xE00D

/-- Modelled from the spec: `STR_UNDEFINED` is a fixed language string id
used as the fallback for string id 0 (`table/strings.h` is not in the
sources). -/
def STR_UNDEFINED : Nat := 0x10

/-- Modelled from the spec: `STR_JUST_RAW_STRING` is the language string
whose template is the single `SCC_RAW_STRING_POINTER` control code; it is
used by `EncodedString::GetDecodedString`. -/
def STR_JUST_RAW_STRING : Nat := 0x11

/-- Modelled from the spec: size of the GameScript string id tab
(`TAB_SIZE_GAMESCRIPT`), the bound checked by `DecodeEncodedString`. -/
def TAB_SIZE_GAMESCRIPT : Nat := 0x8000

/-- Modelled from the spec: `MakeStringID(TEXT_TAB_GAMESCRIPT_START, i)`
maps a GameScript index into the global string id space; modelled as an
offset into a dedicated range. -/
def GAMESCRIPT_STRING_BASE : Nat := 0x100000

/-! ## The plural rule table: `DeterminePluralForm` -/

/-- The rule table of `DeterminePluralForm` applied to the absolute value
`n = abs(count)` (`strings.cpp` lines 652 to 765). The `NOT_REACHED()`
branches (the `switch` default and the inner default of the Korean rule 11)
are modelled as `none`; every other branch returns the form index the source
returns. -/
def pluralIndex (n : Nat) (plural_form : Nat) : Option Nat :=
  match plural_form with
  | 0 => some (if n ≠ 1 then 1 else 0)
  | 1 => some 0
  | 2 => some (if n > 1 then 1 else 0)
  | 3 => some (if n % 10 = 1 ∧ n % 100 ≠ 11 then 0 else if n ≠ 0 then 1 else 2)
  | 4 => some (if n = 1 then 0 else if n = 2 then 1 else if n < 7 then 2
      else if n < 11 then 3 else 4)
  | 5 => some (if n % 10 = 1 ∧ n % 100 ≠ 11 then 0
      else if n % 10 ≥ 2 ∧ (n % 100 < 10 ∨ n % 100 ≥ 20) then 1 else 2)
  | 6 => some (if n % 10 = 1 ∧ n % 100 ≠ 11 then 0
      else if n % 10 ≥ 2 ∧ n % 10 ≤ 4 ∧ (n % 100 < 10 ∨ n % 100 ≥ 20) then 1 else 2)
  | 7 => some (if n = 1 then 0
      else if n % 10 ≥ 2 ∧ n % 10 ≤ 4 ∧ (n % 100 < 10 ∨ n % 100 ≥ 20) then 1 else 2)
  | 8 => some (if n % 100 = 1 then 0 else if n % 100 = 2 then 1
      else if n % 100 = 3 ∨ n % 100 = 4 then 2 else 3)
  | 9 => some (if n % 10 = 1 ∧ n % 100 ≠ 11 then 0 else 1)
  | 10 => some (if n = 1 then 0 else if n ≥ 2 ∧ n ≤ 4 then 1 else 2)
  | 11 =>
    if n % 10 = 0 ∨ n % 10 = 1 ∨ n % 10 = 3 ∨ n % 10 = 6 ∨ n % 10 = 7 ∨ n % 10 = 8 then some 0
    else if n % 10 = 2 ∨ n % 10 = 4 ∨ n % 10 = 5 ∨ n % 10 = 9 then some 1
    else none
  | 12 => some (if n = 1 then 0 else if n = 0 ∨ (n % 100 > 1 ∧ n % 100 < 11) then 1
      else if n % 100 > 10 ∧ n % 100 < 20 then 2 else 3)
  | 13 => some (if n = 1 ∨ n = 11 then 0 else if n = 2 ∨ n = 12 then 1
      else if (n > 2 ∧ n < 11) ∨ (n > 12 ∧ n < 20) then 2 else 3)
  | 14 => some (if n = 1 then 0 else if n = 0 ∨ (n % 100 > 0 ∧ n % 100 < 20) then 1 else 2)
  | _ => none

/-- `DeterminePluralForm` from `strings.cpp` lines 647 to 766: the absolute
value of `count` determines plurality, then the rule table is consulted. -/
def determinePluralForm (count : Int) (plural_form : Nat) : Option Nat :=
  pluralIndex count.natAbs plural_form

/-- Number of plural forms each rule selects among, as documented in the
comment above each case of `DeterminePluralForm` (two forms, three forms,
and so on). -/
def numPluralForms (plural_form : Nat) : Nat :=
  match plural_form with
  | 0 => 2 | 1 => 1 | 2 => 2 | 3 => 3 | 4 => 5 | 5 => 3 | 6 => 3 | 7 => 3
  | 8 => 4 | 9 => 2 | 10 => 3 | 11 => 2 | 12 => 4 | 13 => 4 | 14 => 3
  | _ => 0

/-- C4: for every integer quantity and every plural rule id from 0 to 14,
`DeterminePluralForm` returns a form index strictly within the number of
forms defined for that rule, and it returns the same index for `count` and
`-count` (sign-independent). -/
theorem determinePluralForm_bounded_signless (count : Int) (rule : Nat) (hrule : rule ≤ 14) :
    ∃ k, determinePluralForm count rule = some k ∧ k < numPluralForms rule ∧
      determinePluralForm (-count) rule = some k := by
  unfold determinePluralForm
  rw [Int.natAbs_neg]
  generalize count.natAbs = n
  have h10 : n % 10 < 10 := Nat.mod_lt n (by norm_num)
  interval_cases rule <;>
    simp only [pluralIndex, numPluralForms] <;>
    first
      | (refine ⟨_, rfl, ?_, rfl⟩
         first
           | omega
           | (split_ifs <;> omega))
      | (split_ifs <;>
          first
            | exact ⟨_, rfl, by omega, rfl⟩
            | (exfalso; omega))

/-- Witness for C4 at quantity 23 and rule 6. -/
theorem determinePluralForm_bounded_signless_witness :
    (6 : Nat) ≤ 14 ∧
      ∃ k, determinePluralForm 23 6 = some k ∧ k < numPluralForms 6 ∧
        determinePluralForm (-23) 6 = some k :=
  ⟨by norm_num, determinePluralForm_bounded_signless 23 6 (by norm_num)⟩

/-- C9: for every integer quantity, the Korean plural rule 11 always reaches
one of the labeled last-digit cases 0 through 9, so the unreachable default
branch is never taken: `DeterminePluralForm` is total for rule 11 and the
result is 0 or 1. -/
theorem determinePluralForm_rule11_total (count : Int) :
    ∃ k, determinePluralForm count 11 = some k ∧ (k = 0 ∨ k = 1) := by
  unfold determinePluralForm
  generalize count.natAbs = n
  have h10 : n % 10 < 10 := Nat.mod_lt n (by norm_num)
  simp only [pluralIndex]
  split_ifs
  · exact ⟨0, rfl, Or.inl rfl⟩
  · exact ⟨1, rfl, Or.inr rfl⟩
  · exfalso; omega

/-! ## Numeric formatters -/

/-- Code points of a string literal, the builder output model. -/
def strCodes (s : String) : List Nat := s.data.map Char.toNat

/-- Decimal digits of a number as code points (`fmt` with format `{}` on a
non-negative value). -/
def decimalCodes (n : Nat) : List Nat := (Nat.toDigits 10 n).map Char.toNat

/-- Zero-padded two-digit rendering (`fmt` format `{:02}`) for values below
100. -/
def pad2Codes (n : Nat) : List Nat :=
  if n < 10 then 48 :: decimalCodes n else decimalCodes n

/-- The non-breaking space `NBSP` emitted between the number and the unit. -/
def NBSP_CODE : Nat := 0xA0

/-- The `iec_prefixes` table of `FormatBytes`; indices beyond the table are
never used (guarded by an assertion in the source). -/
def iecPrefix (id : Nat) : List Nat :=
  match id with
  | 0 => []
  | 1 => strCodes "Ki"
  | 2 => strCodes "Mi"
  | 3 => strCodes "Gi"
  | 4 => strCodes "Ti"
  | 5 => strCodes "Pi"
  | 6 => strCodes "Ei"
  | _ => []

/-- The scaling loop of `FormatBytes`: divide by 1024 while the value is at
least `1024 * 1024`, counting prefixes. The first argument is fuel bounding
the iteration count (the loop runs at most `log2 number / 10` times, so fuel
`number` always suffices). -/
def bytesScaleAux : Nat → Nat → Nat → Nat × Nat
  | 0, number, id => (number, id)
  | fuel + 1, number, id =>
    if number ≥ 1024 * 1024 then bytesScaleAux fuel (number / 1024) (id + 1) else (number, id)

def bytesScale (number : Nat) (id : Nat) : Nat × Nat := bytesScaleAux number number id

/-- `FormatBytes` from `strings.cpp` lines 528 to 554. The decimal
separator is locale configuration, passed in as `sep`. Negative input
violates the `assert(number >= 0)` contract and is modelled as `none`. -/
def formatBytes (sep : List Nat) (number : Int) : Option (List Nat) :=
  if number < 0 then none
  else
    let scaled := bytesScale number.toNat 1
    let n := scaled.1
    let body : List Nat × Nat :=
      if n < 1024 then (decimalCodes n, 0)
      else if n < 1024 * 10 then
        (decimalCodes (n / 1024) ++ sep ++ pad2Codes (n % 1024 * 100 / 1024), scaled.2)
      else if n < 1024 * 100 then
        (decimalCodes (n / 1024) ++ sep ++ decimalCodes (n % 1024 * 10 / 1024), scaled.2)
      else (decimalCodes (n / 1024), scaled.2)
    some (body.1 ++ [NBSP_CODE] ++ iecPrefix body.2 ++ strCodes "B")

/-- C8: `FormatBytes` renders 2048 as the value 2 with two decimal places
and the binary `Ki` prefix, and renders 900 as the bare integer with no
binary prefix; negative input is outside the contract. -/
theorem formatBytes_2048_900 (sep : List Nat) :
    formatBytes sep 2048 =
      some (strCodes "2" ++ sep ++ strCodes "00" ++ [NBSP_CODE] ++ strCodes "KiB") ∧
    formatBytes sep 900 = some (strCodes "900" ++ [NBSP_CODE] ++ strCodes "B") := by
  constructor
  · have h : formatBytes sep 2048 =
        some ((strCodes "2" ++ sep ++ strCodes "00") ++ [NBSP_CODE] ++
          strCodes "Ki" ++ strCodes "B") := rfl
    rw [h]
    simp [strCodes, List.append_assoc]
  · rfl

/-! ## Choice blocks: `SkipStringChoice` and `ParseStringChoice`

The consumer is a list of stream elements; `ReadUint8` yields the head (the
`StringConsumer` default 0 past the end), `Read`/`Skip` take and drop. -/

/-- Read `i` length bytes from the head of the consumer, as in the loops of
`SkipStringChoice` and `ParseStringChoice`. Returns the lengths read and the
remaining consumer. -/
def choiceLens : Nat → List Nat → List Nat × List Nat
  | 0, c => ([], c)
  | i + 1, c =>
    let rest := choiceLens i c.tail
    (c.headD 0 :: rest.1, rest.2)

/-- `SkipStringChoice` from `strings.cpp` lines 768 to 776: read the count,
sum the lengths, skip the payload. Returns the remaining consumer. -/
def skipStringChoice (c : List Nat) : List Nat :=
  let n := c.headD 0
  let lens := choiceLens n c.tail
  lens.2.drop lens.1.sum

/-- `ParseStringChoice` from `strings.cpp` lines 778 to 797: read the count
and the lengths, then skip the sub-strings before `form`, emit the one at
`form`, and skip the ones after it. Returns the emitted text and the
remaining consumer. -/
def parseStringChoice (c : List Nat) (form : Nat) : List Nat × List Nat :=
  let n := c.headD 0
  let lens := choiceLens n c.tail
  let form_pre := (lens.1.take form).sum
  let form_len := lens.1.getD form 0
  let form_post := (lens.1.drop (form + 1)).sum
  let c2 := lens.2.drop form_pre
  (c2.take form_len, (c2.drop form_len).drop form_post)

/-- A well-formed choice block as laid out in the template stream: the count
of sub-strings, their lengths, then their bytes. -/
def mkChoiceBlock (subs : List (List Nat)) : List Nat :=
  subs.length :: (subs.map List.length ++ subs.flatten)

theorem choiceLens_encode (ls : List Nat) (rest : List Nat) :
    choiceLens ls.length (ls ++ rest) = (ls, rest) := by
  induction ls with
  | nil => rfl
  | cons a as ih => simp [choiceLens, ih]

/-- C10: when the selected form index is at least the number `N` of
length-prefixed sub-strings in the choice block, `ParseStringChoice` still
consumes the entire block from the template stream and appends nothing to
the output: an out-of-range plural or gender form degrades to empty output,
never to an error or to stream desynchronization. -/
theorem parseStringChoice_form_out_of_range (subs : List (List Nat)) (form : Nat)
    (rest : List Nat) (hn : subs.length ≤ 255) (hlens : ∀ s ∈ subs, s.length ≤ 255)
    (hform : subs.length ≤ form) :
    parseStringChoice (mkChoiceBlock subs ++ rest) form = ([], rest) := by
  have hblock : mkChoiceBlock subs ++ rest =
      subs.length :: (subs.map List.length ++ (subs.flatten ++ rest)) := by
    simp [mkChoiceBlock]
  rw [hblock]
  unfold parseStringChoice
  simp only [List.headD_cons, List.tail_cons]
  have hlen : (subs.map List.length).length = subs.length := List.length_map _ _
  rw [show subs.map List.length ++ (subs.flatten ++ rest) =
      (subs.map List.length) ++ (subs.flatten ++ rest) from rfl]
  rw [← hlen, choiceLens_encode]
  simp only
  have htake : (subs.map List.length).take form = subs.map List.length :=
    List.take_of_length_le (by simpa using hform)
  have hgetD : (subs.map List.length).getD form 0 = 0 :=
    List.getD_eq_default _ _ (by simpa using hform)
  have hdrop : (subs.map List.length).drop (form + 1) = [] :=
    List.drop_eq_nil_of_le (by simp; omega)
  rw [htake, hgetD, hdrop]
  have hjoin : subs.flatten.length = (subs.map List.length).sum := by
    simpa using List.length_join subs
  have hdropjoin : (subs.flatten ++ rest).drop (subs.map List.length).sum = rest := by
    rw [← hjoin]
    exact List.drop_left _ _
  simp [hdropjoin]

/-- Witness for C10: a two-entry choice block, form index 5, trailing
stream preserved. -/
theorem parseStringChoice_form_out_of_range_witness :
    ((([[65], [66, 67]] : List (List Nat)).length ≤ 255) ∧
      (∀ s ∈ ([[65], [66, 67]] : List (List Nat)), s.length ≤ 255) ∧
      (([[65], [66, 67]] : List (List Nat)).length ≤ 5)) ∧
    parseStringChoice (mkChoiceBlock [[65], [66, 67]] ++ [68, 69]) 5 = ([], [68, 69]) :=
  ⟨⟨by decide, by decide, by decide⟩,
    parseStringChoice_form_out_of_range [[65], [66, 67]] 5 [68, 69]
      (by decide) (by decide) (by decide)⟩

/-! ## The parameter store: `StringParameters` -/

/-- The data of one `StringParameter`: the `std::variant` of `monostate`,
`uint64_t` and `std::string` (text is a code point list). -/
inductive SPData where
  | empty : SPData
  | num : Nat → SPData
  | text : List Nat → SPData
deriving DecidableEq, Repr

/-- One parameter slot: its data and the mutable claimed type tag (0 when
not yet set). -/
structure Slot where
  data : SPData
  type : Nat
deriving DecidableEq, Repr

/-- A fresh slot for caller-supplied data, type tag unset. -/
def initSlot (d : SPData) : Slot := ⟨d, 0⟩

/-- `StringParameters`: the ordered slots, the read cursor, and the type of
the next parameter as announced by `SetTypeOfNextParameter`. -/
structure StringParameters where
  parameters : List Slot
  offset : Nat
  next_type : Nat
deriving DecidableEq, Repr

/-- Fresh parameters over caller data (`StringParameters tmp_params{params}`). -/
def initParams (ds : List SPData) : StringParameters := ⟨ds.map initSlot, 0, 0⟩

/-- The two `std::out_of_range` throw sites of
`StringParameters::GetNextParameterReference`, distinguished by their
message: reading past the end, and reading a slot under a different type
than the one it was first read under. -/
inductive ParamError where
  | outOfRange : ParamError
  | typeMismatch : ParamError
deriving DecidableEq, Repr

/-- `StringParameters::GetNextParameterReference` from `strings.cpp` lines
69 to 84. Past the end it throws without touching state; otherwise the
cursor advances, then a set, different claimed type throws after clearing
`next_type`; otherwise the claimed type is set to `next_type`, `next_type`
is cleared, and the slot data is returned. -/
def getNextParameterReference (sp : StringParameters) :
    Except ParamError SPData × StringParameters :=
  if h : sp.parameters.length ≤ sp.offset then (.error .outOfRange, sp)
  else
    let param := sp.parameters.getD sp.offset (initSlot .empty)
    if param.type ≠ 0 ∧ param.type ≠ sp.next_type then
      (.error .typeMismatch, { sp with offset := sp.offset + 1, next_type := 0 })
    else
      (.ok param.data,
        { sp with
          parameters := sp.parameters.set sp.offset { param with type := sp.next_type },
          offset := sp.offset + 1,
          next_type := 0 })

/-- `StringParameters::GetNextParameter<T>` for integer types. Modelled
from the spec: the typed getter (declared in `strings_internal.h`, not in
the sources) reads the next reference and asserts the integer shape,
failing like a parameter read failure otherwise. -/
def getNextParameterNum (sp : StringParameters) : Except ParamError Nat × StringParameters :=
  match getNextParameterReference sp with
  | (.ok (.num v), sp2) => (.ok v, sp2)
  | (.ok _, sp2) => (.error .typeMismatch, sp2)
  | (.error e, sp2) => (.error e, sp2)

/-- `StringParameters::GetNextParameterString`. Modelled from the spec: the
text-shaped getter, failing like a parameter read failure on a non-text
slot. -/
def getNextParameterString (sp : StringParameters) :
    Except ParamError (List Nat) × StringParameters :=
  match getNextParameterReference sp with
  | (.ok (.text s), sp2) => (.ok s, sp2)
  | (.ok _, sp2) => (.error .typeMismatch, sp2)
  | (.error e, sp2) => (.error e, sp2)

/-- `SetTypeOfNextParameter` (announce the control code about to consume a
parameter). -/
def setTypeOfNextParameter (sp : StringParameters) (t : Nat) : StringParameters :=
  { sp with next_type := t }

/-- `GetTypeAtOffset`, the claimed type of a slot, inspected by the gender
two-pass mechanism. -/
def getTypeAtOffset (sp : StringParameters) (off : Nat) : Nat :=
  (sp.parameters.getD off (initSlot .empty)).type

/-- `GetParam(offset)` as used by the plural code: the numeric value of the
slot at an absolute offset, if it holds one. -/
def getNumParamAt (sp : StringParameters) (off : Nat) : Option Nat :=
  match (sp.parameters.getD off (initSlot .empty)).data with
  | .num v => some v
  | _ => none

/-- C7: `GetNextParameterReference` reads the slot at the cursor and
advances the cursor by one; it fails with `OutOfRange` when the cursor is
at or past the end, fails with `TypeMismatch` when the slot claimed type is
already set and differs from the expected type, and otherwise sets the slot
claimed type to the expected type and returns the slot value. -/
theorem getNextParameterReference_spec :
    (∀ sp : StringParameters, sp.parameters.length ≤ sp.offset →
      getNextParameterReference sp = (.error .outOfRange, sp)) ∧
    (∀ (sp : StringParameters) (slot : Slot), sp.parameters.get? sp.offset = some slot →
      ((slot.type ≠ 0 ∧ slot.type ≠ sp.next_type →
        getNextParameterReference sp =
          (.error .typeMismatch, { sp with offset := sp.offset + 1, next_type := 0 })) ∧
      ((slot.type = 0 ∨ slot.type = sp.next_type) →
        getNextParameterReference sp =
          (.ok slot.data,
            { sp with
              parameters := sp.parameters.set sp.offset { slot with type := sp.next_type },
              offset := sp.offset + 1,
              next_type := 0 })))) := by
  constructor
  · intro sp h
    simp [getNextParameterReference, h]
  · intro sp slot hget
    rw [List.get?_eq_getElem?] at hget
    have hlt : sp.offset < sp.parameters.length := by
      by_contra hnot
      rw [List.getElem?_eq_none (by omega)] at hget
      exact Option.noConfusion hget
    have hgetD : sp.parameters[sp.offset]?.getD (initSlot .empty) = slot := by
      rw [hget]; rfl
    constructor
    · intro hmis
      simp [getNextParameterReference, List.getD, Nat.not_le.mpr hlt, hgetD, hmis]
    · intro hok
      have hnomis : ¬(slot.type ≠ 0 ∧ slot.type ≠ sp.next_type) := by
        rcases hok with h0 | he
        · exact fun hc => hc.1 h0
        · exact fun hc => hc.2 he
      have hgetD2 : (sp.parameters.get? sp.offset).getD (initSlot SPData.empty) = slot := by
        rw [List.get?_eq_getElem?, hget]; rfl
      simp only [getNextParameterReference, List.getD]
      rw [dif_neg (by omega)]
      simp only [hgetD2]
      rw [if_neg hnomis]

/-- Witness for C7: the out-of-range case on an empty store, and the
success case on a fresh one-slot store. -/
theorem getNextParameterReference_spec_witness :
    getNextParameterReference ⟨[], 0, 0⟩ = (.error .outOfRange, ⟨[], 0, 0⟩) ∧
    getNextParameterReference ⟨[initSlot (.num 7)], 0, SCC_COMMA⟩ =
      (.ok (.num 7), ⟨[⟨.num 7, SCC_COMMA⟩], 1, 0⟩) :=
  ⟨getNextParameterReference_spec.1 ⟨[], 0, 0⟩ (by decide),
    by
      have h := (getNextParameterReference_spec.2 ⟨[initSlot (.num 7)], 0, SCC_COMMA⟩
        (initSlot (.num 7)) (by decide)).2 (Or.inl rfl)
      simpa [initSlot] using h⟩

/-! ## Hexadecimal integers on the stream

`StringBuilder::PutIntegerBase(value, 16)` and
`StringConsumer::ReadIntegerBase<T>(16)` /
`StringConsumer::TryReadIntegerBase<T>(16)`. The reader consumes leading
hex digits greedily; with no leading digit `ReadIntegerBase` yields 0
consuming nothing and `TryReadIntegerBase` yields nothing. -/

/-- The value of a hex digit code point, if it is one. -/
def hexDigitVal (c : Nat) : Option Nat :=
  if 48 ≤ c ∧ c ≤ 57 then some (c - 48)
  else if 97 ≤ c ∧ c ≤ 102 then some (c - 87)
  else if 65 ≤ c ∧ c ≤ 70 then some (c - 55)
  else none

def isHexDigit (c : Nat) : Bool := (hexDigitVal c).isSome

/-- The code point of hex digit `d` (lowercase letters), `d < 16`. -/
def hexDigitChar (d : Nat) : Nat := if d < 10 then 48 + d else 87 + d

/-- Little-endian hex digit values of `n`; the first argument is fuel (the
loop runs at most the number of digits, so fuel `n` always suffices). -/
def toHexAux : Nat → Nat → List Nat
  | 0, _ => []
  | fuel + 1, n => if n = 0 then [] else n % 16 :: toHexAux fuel (n / 16)

/-- `PutIntegerBase(n, 16)`: most-significant-first lowercase hex digits,
`"0"` for zero. -/
def toHex (n : Nat) : List Nat :=
  if n = 0 then [48] else ((toHexAux n n).map hexDigitChar).reverse

/-- Greedy hex reader with accumulator. -/
def readHexAux : List Nat → Nat → Nat × List Nat
  | [], acc => (acc, [])
  | d :: rest, acc =>
    match hexDigitVal d with
    | some v => readHexAux rest (acc * 16 + v)
    | none => (acc, d :: rest)

/-- `ReadIntegerBase<T>(16)`: value of the leading hex digits (0 if none)
and the remaining stream. -/
def readIntegerBase16 (c : List Nat) : Nat × List Nat := readHexAux c 0

/-- `TryReadIntegerBase<T>(16)`: fails when the stream does not start with
a hex digit. -/
def tryReadIntegerBase16 (c : List Nat) : Option (Nat × List Nat) :=
  if isHexDigit (c.headD 0) ∧ c ≠ [] then some (readHexAux c 0) else none

/-- The little-endian value of a digit list. -/
def hexValLE : List Nat → Nat
  | [] => 0
  | d :: ds => d + 16 * hexValLE ds

theorem hexDigitVal_hexDigitChar (d : Nat) (hd : d < 16) :
    hexDigitVal (hexDigitChar d) = some d := by
  unfold hexDigitVal hexDigitChar
  split_ifs <;> first | (congr 1; omega) | (exfalso; omega)

theorem toHexAux_valLE (fuel n : Nat) (h : n ≤ fuel) : hexValLE (toHexAux fuel n) = n := by
  induction fuel generalizing n with
  | zero => interval_cases n; rfl
  | succ f ih =>
    unfold toHexAux
    by_cases h0 : n = 0
    · simp [h0, hexValLE]
    · have hdiv : n / 16 ≤ f := by
        have : n / 16 < n := Nat.div_lt_self (by omega) (by norm_num)
        omega
      simp only [h0, if_false, hexValLE, ih (n / 16) hdiv]
      omega

theorem toHexAux_lt16 (fuel n : Nat) : ∀ d ∈ toHexAux fuel n, d < 16 := by
  induction fuel generalizing n with
  | zero => intro d hd; simp [toHexAux] at hd
  | succ f ih =>
    intro d hd
    unfold toHexAux at hd
    by_cases h0 : n = 0
    · simp [h0] at hd
    · simp only [h0, if_false, List.mem_cons] at hd
      rcases hd with rfl | hd
      · exact Nat.mod_lt _ (by norm_num)
      · exact ih (n / 16) d hd

theorem readHexAux_digits (ds : List Nat) (hds : ∀ d ∈ ds, d < 16) (rest : List Nat)
    (hrest : isHexDigit (rest.headD 0) = false ∨ rest = []) (acc : Nat) :
    readHexAux (ds.map hexDigitChar ++ rest) acc =
      (ds.foldl (fun a d => a * 16 + d) acc, rest) := by
  induction ds generalizing acc with
  | nil =>
    rcases hrest with h | h
    · cases rest with
      | nil => rfl
      | cons r rs =>
        simp only [List.map_nil, List.nil_append, readHexAux]
        simp only [List.headD_cons] at h
        rw [show hexDigitVal r = none by
          rcases hv : hexDigitVal r with _ | v
          · rfl
          · exfalso; rw [isHexDigit, hv] at h; simp at h]
        rfl
    · subst h; rfl
  | cons d ds ih =>
    simp only [List.map_cons, List.cons_append, readHexAux,
      hexDigitVal_hexDigitChar d (hds d (by simp)), List.foldl_cons]
    exact ih (fun x hx => hds x (by simp [hx])) _

theorem foldl_reverse_hexValLE (ds : List Nat) (acc : Nat) :
    (ds.reverse.foldl (fun a d => a * 16 + d) acc) = acc * 16 ^ ds.length + hexValLE ds := by
  induction ds generalizing acc with
  | nil => simp [hexValLE]
  | cons d tl ih =>
    simp only [List.reverse_cons, List.foldl_append, List.foldl_cons, List.foldl_nil, ih,
      hexValLE, List.length_cons]
    ring

/-- Reading back what `PutIntegerBase` wrote recovers the value and leaves
the rest, provided the rest does not begin with a hex digit. -/
theorem readIntegerBase16_toHex (n : Nat) (rest : List Nat)
    (hrest : isHexDigit (rest.headD 0) = false ∨ rest = []) :
    readIntegerBase16 (toHex n ++ rest) = (n, rest) := by
  unfold readIntegerBase16
  by_cases h0 : n = 0
  · subst h0
    rw [show toHex 0 = [0].map hexDigitChar from rfl]
    rw [readHexAux_digits [0] (by decide) rest hrest 0]
    rfl
  · rw [show toHex n = ((toHexAux n n).reverse).map hexDigitChar by
       unfold toHex
       rw [if_neg h0]
       exact (List.map_reverse _ _).symm]
    rw [readHexAux_digits _ (fun d hd => toHexAux_lt16 n n d (by simpa using hd)) rest hrest 0]
    rw [foldl_reverse_hexValLE]
    simp [toHexAux_valLE n n (le_refl n)]

/-! ## The encoded-string codec -/

/-- The payload of one parameter record, as the visitor of
`GetEncodedStringWithArgs` emits it: nothing for `monostate`, a numeric tag
with the hex value, a string tag with the raw text. -/
def encodeRecordPayload : SPData → List Nat
  | .empty => []
  | .num v => SCC_ENCODED_NUMERIC :: toHex v
  | .text s => SCC_ENCODED_STRING :: s

/-- The parameter records of `GetEncodedStringWithArgs`: each preceded by a
record separator. -/
def encodeParams (params : List SPData) : List Nat :=
  params.flatMap (fun p => SCC_RECORD_SEPARATOR :: encodeRecordPayload p)

/-- `GetEncodedStringWithArgs` from `strings.cpp` lines 103 to 142: the
internal marker, the string id in hex, then the parameter records. (The
debug-only assertion on the first code point of a text parameter is a
release no-op and does not affect the produced value.) -/
def getEncodedStringWithArgs (str : Nat) (params : List SPData) : List Nat :=
  SCC_ENCODED_INTERNAL :: (toHex str ++ encodeParams params)

/-- Result of decoding one record in `DecodeEncodedString`: either a
parameter, or the bail-out on an out-of-range GameScript sub-string id. -/
inductive RecResult where
  | param : SPData → RecResult
  | invalidSubId : RecResult
deriving DecidableEq, Repr

/-- One record of `DecodeEncodedString` (`strings.cpp` lines 1022 to 1059):
empty records are empty parameters, `SCC_ENCODED` records are GameScript
sub-string ids (bailing out when out of range), numeric and string records
carry their payload, unknown tags become blank. (The debug-only assertion
that a numeric record has no trailing bytes is a release no-op; trailing
bytes are dropped.) -/
def decodeRecord (record : List Nat) : RecResult :=
  match record with
  | [] => .param .empty
  | t :: rest =>
    if t = SCC_ENCODED then
      let p := readIntegerBase16 rest
      if p.1 ≥ TAB_SIZE_GAMESCRIPT then .invalidSubId
      else .param (.num (GAMESCRIPT_STRING_BASE + p.1))
    else if t = SCC_ENCODED_NUMERIC then .param (.num (readIntegerBase16 rest).1)
    else if t = SCC_ENCODED_STRING then .param (.text rest)
    else .param .empty

/-- The record loop of `DecodeEncodedString`: skip a separator if present,
cut the record at the next separator (separator kept), decode, repeat. The
first argument is fuel: every iteration consumes at least one element, so
fuel `c.length + 1` always suffices. `none` is the bail-out return. -/
def decodeRecordsAux : Nat → List Nat → Option (List SPData)
  | 0, _ => some []
  | fuel + 1, c =>
    match c with
    | [] => some []
    | _ :: _ =>
      let c1 := if c.headD 0 = SCC_RECORD_SEPARATOR then c.tail else c
      let record := c1.takeWhile (fun x => x ≠ SCC_RECORD_SEPARATOR)
      let c2 := c1.dropWhile (fun x => x ≠ SCC_RECORD_SEPARATOR)
      match decodeRecord record with
      | .invalidSubId => none
      | .param p => (decodeRecordsAux fuel c2).map (fun ps => p :: ps)

def decodeRecords (c : List Nat) : Option (List SPData) := decodeRecordsAux (c.length + 1) c

/-- One record of `EncodedString::ReplaceParam` (`strings.cpp` lines
171 to 196): like the decode loop but with no GameScript case and no
bail-out; unknown tags become blank. -/
def replaceRecord (record : List Nat) : SPData :=
  match record with
  | [] => .empty
  | t :: rest =>
    if t = SCC_ENCODED_NUMERIC then .num (readIntegerBase16 rest).1
    else if t = SCC_ENCODED_STRING then .text rest
    else .empty

/-- The record loop of `EncodedString::ReplaceParam`: cut the record at the
next separator and skip that one separator (`SKIP_ONE_SEPARATOR`). Fueled
like `decodeRecordsAux`. -/
def replaceRecordsAux : Nat → List Nat → List SPData
  | 0, _ => []
  | fuel + 1, c =>
    match c with
    | [] => []
    | _ :: _ =>
      let record := c.takeWhile (fun x => x ≠ SCC_RECORD_SEPARATOR)
      let rest := c.dropWhile (fun x => x ≠ SCC_RECORD_SEPARATOR)
      let c2 := if rest.headD 0 = SCC_RECORD_SEPARATOR then rest.tail else rest
      replaceRecord record :: replaceRecordsAux fuel c2

/-- The parsing phase of `EncodedString::ReplaceParam` (`strings.cpp` lines
151 to 197): requires the internal marker, a parseable hex id
(`TryReadIntegerBase`), and a record separator next when any bytes remain;
`none` models the empty-return paths. -/
def replaceParamParse (enc : List Nat) : Option (Nat × List SPData) :=
  match enc with
  | [] => none
  | c0 :: rest =>
    if c0 = SCC_ENCODED_INTERNAL then
      (tryReadIntegerBase16 rest).bind (fun idc =>
        if idc.2 = [] then some (idc.1, [])
        else if idc.2.headD 0 = SCC_RECORD_SEPARATOR then
          some (idc.1, replaceRecordsAux idc.2.length idc.2.tail)
        else none)
    else none

/-- `EncodedString::ReplaceParam` from `strings.cpp` lines 151 to 202:
decode, splice, re-encode; the empty encoded value on an undecodable
original or an out-of-bounds index. -/
def replaceParam (enc : List Nat) (param : Nat) (data : SPData) : List Nat :=
  match replaceParamParse enc with
  | none => []
  | some sp =>
    if param < sp.2.length then getEncodedStringWithArgs sp.1 (sp.2.set param data)
    else []

/-- The round-trip well-formedness of caller data: a text parameter must
not contain the record separator code point (the codec layout reserves
it). -/
def wfData : SPData → Prop
  | .text s => SCC_RECORD_SEPARATOR ∉ s
  | _ => True

instance : DecidablePred wfData := fun d => by
  cases d <;> simp [wfData] <;> infer_instance

theorem toHex_mem_le (v : Nat) : ∀ x ∈ toHex v, x ≤ 102 := by
  intro x hx
  unfold toHex at hx
  split_ifs at hx with h0
  · simp at hx; omega
  · rw [List.mem_reverse] at hx
    rcases List.mem_map.mp hx with ⟨d, hd, rfl⟩
    have hlt : d < 16 := toHexAux_lt16 v v d hd
    unfold hexDigitChar
    split_ifs <;> omega

theorem encodeRecordPayload_no_sep (p : SPData) (hp : wfData p) :
    ∀ x ∈ encodeRecordPayload p, x ≠ SCC_RECORD_SEPARATOR := by
  cases p with
  | empty => intro x hx; simp [encodeRecordPayload] at hx
  | num v =>
    intro x hx
    simp only [encodeRecordPayload, List.mem_cons] at hx
    rcases hx with rfl | hx
    · decide
    · have := toHex_mem_le v x hx
      intro hsep
      rw [hsep] at this
      simp [SCC_RECORD_SEPARATOR] at this
  | text s =>
    intro x hx
    simp only [encodeRecordPayload, List.mem_cons] at hx
    rcases hx with rfl | hx
    · decide
    · exact fun hsep => hp (hsep ▸ hx)

theorem takeWhile_dropWhile_payload (l rest : List Nat)
    (hl : ∀ x ∈ l, x ≠ SCC_RECORD_SEPARATOR)
    (hrest : rest.headD 0 = SCC_RECORD_SEPARATOR ∨ rest = []) :
    (l ++ rest).takeWhile (fun x => x ≠ SCC_RECORD_SEPARATOR) = l ∧
    (l ++ rest).dropWhile (fun x => x ≠ SCC_RECORD_SEPARATOR) = rest := by
  induction l with
  | nil =>
    simp only [List.nil_append]
    rcases hrest with h | h
    · cases rest with
      | nil => simp
      | cons r rs =>
        simp only [List.headD_cons] at h
        subst h
        constructor
        · rw [List.takeWhile_cons]; simp
        · rw [List.dropWhile_cons]; simp
    · subst h; simp
  | cons a as ih =>
    have ha : a ≠ SCC_RECORD_SEPARATOR := hl a (by simp)
    have hih := ih (fun x hx => hl x (by simp [hx]))
    constructor
    · rw [List.cons_append, List.takeWhile_cons_of_pos (by simp [ha]), hih.1]
    · rw [List.cons_append, List.dropWhile_cons_of_pos (by simp [ha]), hih.2]

theorem readIntegerBase16_toHex_nil (v : Nat) : readIntegerBase16 (toHex v) = (v, []) := by
  have h := readIntegerBase16_toHex v [] (Or.inr rfl)
  simpa using h

theorem decodeRecord_encode (p : SPData) : decodeRecord (encodeRecordPayload p) = .param p := by
  cases p with
  | empty => rfl
  | num v =>
    show decodeRecord (SCC_ENCODED_NUMERIC :: toHex v) = _
    simp [decodeRecord, readIntegerBase16_toHex_nil v, SCC_ENCODED_NUMERIC, SCC_ENCODED]
  | text s =>
    show decodeRecord (SCC_ENCODED_STRING :: s) = _
    simp [decodeRecord, SCC_ENCODED_STRING, SCC_ENCODED, SCC_ENCODED_NUMERIC]

theorem replaceRecord_encode (p : SPData) (hp : p ≠ .empty) :
    replaceRecord (encodeRecordPayload p) = p := by
  cases p with
  | empty => exact absurd rfl hp
  | num v =>
    show replaceRecord (SCC_ENCODED_NUMERIC :: toHex v) = _
    simp [replaceRecord, readIntegerBase16_toHex_nil v]
  | text s =>
    show replaceRecord (SCC_ENCODED_STRING :: s) = _
    simp [replaceRecord, SCC_ENCODED_STRING, SCC_ENCODED_NUMERIC]

theorem replaceRecord_encode_empty : replaceRecord (encodeRecordPayload .empty) = .empty := rfl

/-- The head of the record section is a separator, or the section is
empty. -/
theorem encodeParams_head (params : List SPData) :
    (encodeParams params).headD 0 = SCC_RECORD_SEPARATOR ∨ encodeParams params = [] := by
  cases params with
  | nil => exact Or.inr rfl
  | cons p ps => exact Or.inl rfl

theorem decodeRecordsAux_nil (fuel : Nat) : decodeRecordsAux fuel [] = some [] := by
  cases fuel <;> rfl

theorem replaceRecordsAux_nil (fuel : Nat) : replaceRecordsAux fuel [] = [] := by
  cases fuel <;> rfl

/-- Unfolding of one decode-loop iteration on a separator-headed stream. -/
theorem decodeRecordsAux_cons_sep (f : Nat) (tail : List Nat) :
    decodeRecordsAux (f + 1) (SCC_RECORD_SEPARATOR :: tail) =
      (match decodeRecord (tail.takeWhile (fun x => x ≠ SCC_RECORD_SEPARATOR)) with
       | .invalidSubId => none
       | .param p =>
         (decodeRecordsAux f (tail.dropWhile (fun x => x ≠ SCC_RECORD_SEPARATOR))).map
           (fun ps => p :: ps)) := rfl

/-- Unfolding of one splice-loop iteration on a nonempty stream. -/
theorem replaceRecordsAux_cons (f : Nat) (a : Nat) (l : List Nat) :
    replaceRecordsAux (f + 1) (a :: l) =
      replaceRecord ((a :: l).takeWhile (fun x => x ≠ SCC_RECORD_SEPARATOR)) ::
        replaceRecordsAux f
          (if ((a :: l).dropWhile
                (fun x => x ≠ SCC_RECORD_SEPARATOR)).headD 0 = SCC_RECORD_SEPARATOR then
            ((a :: l).dropWhile (fun x => x ≠ SCC_RECORD_SEPARATOR)).tail
          else (a :: l).dropWhile (fun x => x ≠ SCC_RECORD_SEPARATOR)) := rfl

/-- The decode loop recovers exactly the encoded parameter list. -/
theorem decodeRecordsAux_encode (params : List SPData) (hwf : ∀ p ∈ params, wfData p) :
    ∀ fuel, (encodeParams params).length ≤ fuel →
      decodeRecordsAux fuel (encodeParams params) = some params := by
  induction params with
  | nil => intro fuel _; exact decodeRecordsAux_nil fuel
  | cons p ps ih =>
    intro fuel hfuel
    have hshape : encodeParams (p :: ps) =
        SCC_RECORD_SEPARATOR :: (encodeRecordPayload p ++ encodeParams ps) := by
      simp [encodeParams]
    rw [hshape] at hfuel ⊢
    obtain ⟨f, rfl⟩ : ∃ f, fuel = f + 1 := ⟨fuel - 1, by simp at hfuel; omega⟩
    have hsplit := takeWhile_dropWhile_payload (encodeRecordPayload p) (encodeParams ps)
      (encodeRecordPayload_no_sep p (hwf p (by simp))) (encodeParams_head ps)
    rw [decodeRecordsAux_cons_sep, hsplit.1, hsplit.2, decodeRecord_encode p,
      ih (fun q hq => hwf q (by simp [hq])) f (by simp at hfuel ⊢; omega)]
    rfl

/-- The splice loop of `ReplaceParam` recovers the parameter list, provided
the last parameter is not the empty parameter (a trailing empty record is
consumed with the final separator and lost). -/
theorem replaceRecordsAux_encode (p : SPData) (ps : List SPData)
    (hwf : ∀ q ∈ p :: ps, wfData q)
    (hlast : (p :: ps).getLast (by simp) ≠ SPData.empty) :
    ∀ fuel, (encodeRecordPayload p ++ encodeParams ps).length ≤ fuel →
      replaceRecordsAux fuel (encodeRecordPayload p ++ encodeParams ps) = p :: ps := by
  induction ps generalizing p with
  | nil =>
    intro fuel hfuel
    have hp : p ≠ .empty := by simpa using hlast
    have hne : encodeRecordPayload p ≠ [] := by
      cases p with
      | empty => exact absurd rfl hp
      | num v => simp [encodeRecordPayload]
      | text s => simp [encodeRecordPayload]
    simp only [encodeParams, List.flatMap_nil, List.append_nil] at hfuel ⊢
    obtain ⟨f, rfl⟩ : ∃ f, fuel = f + 1 := by
      have h1 : 1 ≤ (encodeRecordPayload p).length := by
        cases hpp : encodeRecordPayload p with
        | nil => exact absurd hpp hne
        | cons a l => simp
      exact ⟨fuel - 1, by omega⟩
    obtain ⟨a, l, hal⟩ : ∃ a l, encodeRecordPayload p = a :: l := by
      cases hpp : encodeRecordPayload p with
      | nil => exact absurd hpp hne
      | cons a l => exact ⟨a, l, rfl⟩
    have hsplit := takeWhile_dropWhile_payload (encodeRecordPayload p) []
      (encodeRecordPayload_no_sep p (hwf p (by simp))) (Or.inr rfl)
    simp only [List.append_nil] at hsplit
    rw [hal, replaceRecordsAux_cons, ← hal, hsplit.1, hsplit.2, replaceRecord_encode p hp]
    simp [replaceRecordsAux_nil]
  | cons q qs ih =>
    intro fuel hfuel
    have hshape : encodeParams (q :: qs) =
        SCC_RECORD_SEPARATOR :: (encodeRecordPayload q ++ encodeParams qs) := by
      simp [encodeParams]
    rw [hshape] at hfuel ⊢
    have hsplit := takeWhile_dropWhile_payload (encodeRecordPayload p)
      (SCC_RECORD_SEPARATOR :: (encodeRecordPayload q ++ encodeParams qs))
      (encodeRecordPayload_no_sep p (hwf p (by simp))) (Or.inl rfl)
    obtain ⟨f, rfl⟩ : ∃ f, fuel = f + 1 := ⟨fuel - 1, by simp at hfuel; omega⟩
    obtain ⟨a, l, hal⟩ : ∃ a l,
        encodeRecordPayload p ++
          (SCC_RECORD_SEPARATOR :: (encodeRecordPayload q ++ encodeParams qs)) = a :: l := by
      cases hpp : encodeRecordPayload p ++
          (SCC_RECORD_SEPARATOR :: (encodeRecordPayload q ++ encodeParams qs)) with
      | nil => simp at hpp
      | cons a l => exact ⟨a, l, rfl⟩
    rw [hal, replaceRecordsAux_cons, ← hal, hsplit.1, hsplit.2]
    simp only [List.headD_cons, List.tail_cons, eq_self_iff_true, if_true]
    have hrec : replaceRecord (encodeRecordPayload p) = p := by
      cases p with
      | empty => rfl
      | num v => exact replaceRecord_encode _ (by simp)
      | text s => exact replaceRecord_encode _ (by simp)
    rw [hrec]
    rw [ih q (fun r hr => hwf r (by simp at hr ⊢; tauto))
      (by simpa using hlast) f (by simp at hfuel ⊢; omega)]

theorem toHex_ne_nil (n : Nat) : toHex n ≠ [] := by
  unfold toHex
  split_ifs with h0
  · simp
  · intro h
    obtain ⟨f, rfl⟩ : ∃ f, n = f + 1 := ⟨n - 1, by omega⟩
    simp only [toHexAux, h0, if_false] at h
    simp at h

theorem toHex_mem_hex (n : Nat) : ∀ x ∈ toHex n, isHexDigit x = true := by
  intro x hx
  unfold toHex at hx
  split_ifs at hx with h0
  · simp at hx
    subst hx
    decide
  · rw [List.mem_reverse] at hx
    rcases List.mem_map.mp hx with ⟨d, hd, rfl⟩
    have hlt : d < 16 := toHexAux_lt16 n n d hd
    simp [isHexDigit, hexDigitVal_hexDigitChar d hlt]

theorem headD_append_of_ne_nil {l r : List Nat} (h : l ≠ []) (d : Nat) :
    (l ++ r).headD d = l.headD d := by
  cases l with
  | nil => exact absurd rfl h
  | cons a as => rfl

theorem tryReadIntegerBase16_toHex (id : Nat) (rest : List Nat)
    (hrest : isHexDigit (rest.headD 0) = false ∨ rest = []) :
    tryReadIntegerBase16 (toHex id ++ rest) = some (id, rest) := by
  unfold tryReadIntegerBase16
  rw [if_pos]
  · exact congrArg some (readIntegerBase16_toHex id rest hrest)
  · constructor
    · rw [headD_append_of_ne_nil (toHex_ne_nil id)]
      cases h : toHex id with
      | nil => exact absurd h (toHex_ne_nil id)
      | cons a as =>
        have := toHex_mem_hex id a (by simp [h])
        simpa using this
    · intro h
      exact toHex_ne_nil id (List.append_eq_nil.mp h).1

/-- The record section of the encoding never begins with a hex digit. -/
theorem encodeParams_not_hex (params : List SPData) :
    isHexDigit ((encodeParams params).headD 0) = false ∨ encodeParams params = [] := by
  rcases encodeParams_head params with h | h
  · left
    rw [h]
    decide
  · exact Or.inr h

theorem decodeRecords_encode (params : List SPData) (hwf : ∀ p ∈ params, wfData p) :
    decodeRecords (encodeParams params) = some params :=
  decodeRecordsAux_encode params hwf _ (by omega)

/-- The parsing phase of `ReplaceParam` recovers what `encode` produced,
provided the last parameter is not empty. -/
theorem replaceParamParse_encode (id : Nat) (params : List SPData)
    (hwf : ∀ p ∈ params, wfData p) (hlast : params.getLast? ≠ some SPData.empty) :
    replaceParamParse (getEncodedStringWithArgs id params) = some (id, params) := by
  show replaceParamParse (SCC_ENCODED_INTERNAL :: (toHex id ++ encodeParams params)) = _
  rw [show replaceParamParse (SCC_ENCODED_INTERNAL :: (toHex id ++ encodeParams params)) =
      (tryReadIntegerBase16 (toHex id ++ encodeParams params)).bind (fun idc =>
        if idc.2 = [] then some (idc.1, [])
        else if idc.2.headD 0 = SCC_RECORD_SEPARATOR then
          some (idc.1, replaceRecordsAux idc.2.length idc.2.tail)
        else none) from rfl]
  rw [tryReadIntegerBase16_toHex id _ (encodeParams_not_hex params)]
  rw [Option.some_bind]
  cases params with
  | nil => rfl
  | cons p ps =>
    have hshape : encodeParams (p :: ps) =
        SCC_RECORD_SEPARATOR :: (encodeRecordPayload p ++ encodeParams ps) := by
      simp [encodeParams]
    rw [hshape]
    simp only [List.tail_cons, List.length_cons, List.headD_cons]
    rw [if_neg (by simp)]
    simp only [eq_self_iff_true, if_true]
    rw [replaceRecordsAux_encode p ps hwf
      (by
        rw [List.getLast?_eq_getLast (p :: ps) (by simp)] at hlast
        intro h
        exact hlast (by rw [h])
        )
      _ (by omega)]

/-! ## The template interpreter: `FormatString`

The interpreter is modelled over the fragment of control codes the claims
exercise; every other code point in the control range takes the `default`
passthrough branch, exactly as unhandled codes do in the source `switch`.
The NewGRF remap hook (an external collaborator) is out of the modelled
fragment.

Recursive sub-template expansion (`SCC_RAW_STRING_POINTER`, the gender
sub-format, and the decode of an encoded string) is depth-indexed: each
nested `FormatString` invocation runs at one less depth, and at depth zero a
marker is produced. The source has no such bound (it recurses on the native
stack); every theorem quantifies over the depth, and the bound never fires
on the inputs the theorems speak about. -/

/-- External read-only state: the text resolver and the locale separators.
Modelled from the spec: `GetStringPtr` and the language pack are external
collaborators specified at their interface. -/
structure FmtEnv where
  getTemplate : Nat → List Nat
  groupSep : List Nat
  decimalSep : List Nat

/-- The mutable state a formatting call threads: the parameter store and
the `_scan_for_gender_data` global flag. -/
structure FmtState where
  params : StringParameters
  scan : Bool
deriving DecidableEq, Repr

/-- `static_cast<int64_t>` of a `uint64_t` parameter value. -/
def toInt64 (v : Nat) : Int := if v < 2 ^ 63 then (v : Int) else (v : Int) - 2 ^ 64

/-- `FormatNumber` digit loop (`strings.cpp` lines 473 to 499): 20-digit
long division emitting a separator after positions congruent to the
thousands offset. The first argument counts the remaining iterations. -/
def fmtNumAux (sep : List Nat) : Nat → Nat → Nat → Nat → Bool → List Nat
  | 0, _, _, _, _ => []
  | k + 1, i, divisor, num, tot =>
    let quot := if num ≥ divisor then num / divisor else 0
    let num2 := if num ≥ divisor then num % divisor else num
    let tot2 := tot || decide (quot ≠ 0)
    let emit := tot2 || decide (i = 19)
    (if emit then
      (48 + quot) :: (if i % 3 = 1 ∧ i < 19 then sep else [])
    else []) ++ fmtNumAux sep k (i + 1) (divisor / 10) num2 tot2

/-- `FormatNumber`: sign, then the grouped digits. -/
def formatNumber (sep : List Nat) (number : Int) : List Nat :=
  (if number < 0 then [45] else []) ++
    fmtNumAux sep 20 0 (10 ^ 19) number.natAbs false

/-- `FormatNoCommaNumber` (`fmt` format `{}` on an `int64_t`). -/
def formatNoCommaNumber (number : Int) : List Nat :=
  (if number < 0 then [45] else []) ++ decimalCodes number.natAbs

/-- Uppercase hex digits of `n` (`fmt` format `{:X}`). -/
def upperHexCodes (n : Nat) : List Nat :=
  (Nat.toDigits 16 n).map
    (fun c => if 97 ≤ c.toNat ∧ c.toNat ≤ 102 then c.toNat - 32 else c.toNat)

/-- `FormatHexNumber`. -/
def formatHexNumber (n : Nat) : List Nat := strCodes "0x" ++ upperHexCodes n

def invalidParamMsg : List Nat := strCodes "(invalid parameter)"
def invalidEncodedMsg : List Nat := strCodes "(invalid SCC_ENCODED)"
def invalidStringIdMsg : List Nat := strCodes "(invalid StringID)"
def invalidSubIdMsg : List Nat := strCodes "(invalid sub-StringID)"
def invalidGenderMsg : List Nat := strCodes "(invalid GENDER parameter)"
def invalidPluralMsg : List Nat := strCodes "(invalid PLURAL parameter)"

/-- Model of the fatal `NOT_REACHED` on corrupt language-pack plural data
(spec section 7: a violated structural invariant of the pack itself). -/
def notReachedMsg : List Nat := strCodes "(NOT_REACHED)"

/-- Model artifact: emitted when the recursion depth index is exhausted at
a sub-template expansion; never reached at sufficient depth. -/
def depthMsg : List Nat := strCodes "(depth exhausted)"

/-- The control-code dispatch loop of `FormatString` (`strings.cpp` lines
1105 to 1832). `site` is the nested full `FormatString` invocation used by
sub-template expansion. The `Nat` argument is the loop fuel: every
iteration consumes at least one stream element, so `c.length + 1` always
suffices. `dry` is the dry-run flag of the current pass, `gs` the
GameScript flag, `ref` the reference parameter offset captured at entry
(`orig_first_param_offset`). A parameter-read failure appends the
bracketed diagnostic the per-iteration catch writes, and the loop
continues. -/
def fmtLoopAux (env : FmtEnv) (site : Bool → List Nat → FmtState → List Nat × FmtState) :
    Nat → Bool → Bool → Nat → List Nat → List Nat → FmtState → List Nat × FmtState
  | 0, _, _, _, _, out, st => (out, st)
  | cf + 1, dry, gs, ref, c, out, st =>
    match c with
    | [] => (out, st)
    | b :: cs =>
      if b < SCC_CONTROL_START ∨ SCC_CONTROL_END < b then
        fmtLoopAux env site cf dry gs ref cs (out ++ [b]) st
      else
        let st0 : FmtState := ⟨setTypeOfNextParameter st.params b, st.scan⟩
        if b = SCC_ENCODED ∨ b = SCC_ENCODED_INTERNAL then
          let gsE : Bool := decide (b = SCC_ENCODED)
          let idc := readIntegerBase16 cs
          if idc.2 ≠ [] ∧ idc.2.headD 0 ≠ SCC_RECORD_SEPARATOR then
            (out ++ invalidEncodedMsg, st0)
          else if gsE ∧ idc.1 ≥ TAB_SIZE_GAMESCRIPT then
            (out ++ invalidStringIdMsg, st0)
          else
            match decodeRecords idc.2 with
            | none => (out ++ invalidSubIdMsg, st0)
            | some ps =>
              let stringid := if gsE then GAMESCRIPT_STRING_BASE + idc.1 else idc.1
              let tgt := env.getTemplate (if stringid = 0 then STR_UNDEFINED else stringid)
              let sub := site gsE tgt ⟨initParams ps, st0.scan⟩
              (out ++ sub.1, ⟨st0.params, sub.2.scan⟩)
        else if b = SCC_GENDER_LIST then
          let offs := cs.headD 0
          let cs1 := cs.tail
          let offset := ref + offs
          if offset ≥ st0.params.parameters.length then
            let r := parseStringChoice cs1 0
            fmtLoopAux env site cf dry gs ref r.2 (out ++ invalidGenderMsg ++ r.1) st0
          else if ¬dry ∧ getTypeAtOffset st0.params offset ≠ 0 then
            let input := [getTypeAtOffset st0.params offset]
            let subParams : StringParameters := ⟨st0.params.parameters.drop offset, 0, 0⟩
            let sub := site false input ⟨subParams, true⟩
            let newSlots := st0.params.parameters.take offset ++ sub.2.params.parameters
            let st1 : FmtState :=
              ⟨⟨newSlots, st0.params.offset, st0.params.next_type⟩, st0.scan⟩
            let gender := if sub.1.headD 0 = SCC_GENDER_INDEX then sub.1.tail.headD 0 else 0
            let r := parseStringChoice cs1 gender
            fmtLoopAux env site cf dry gs ref r.2 (out ++ r.1) st1
          else
            let r := parseStringChoice cs1 0
            fmtLoopAux env site cf dry gs ref r.2 (out ++ r.1) st0
        else if b = SCC_GENDER_INDEX then
          let g := cs.headD 0
          if st0.scan then
            fmtLoopAux env site cf dry gs ref cs.tail (out ++ [SCC_GENDER_INDEX, g]) st0
          else fmtLoopAux env site cf dry gs ref cs.tail out st0
        else if b = SCC_PLURAL_LIST then
          let pf := cs.headD 0
          let offs := cs.tail.headD 0
          let cs2 := cs.tail.tail
          let offset := ref + offs
          match (if offset < st0.params.parameters.length
                 then getNumParamAt st0.params offset else none) with
          | some v =>
            match determinePluralForm (toInt64 v) pf with
            | some form =>
              let r := parseStringChoice cs2 form
              fmtLoopAux env site cf dry gs ref r.2 (out ++ r.1) st0
            | none =>
              fmtLoopAux env site cf dry gs ref (skipStringChoice cs2)
                (out ++ notReachedMsg) st0
          | none =>
            fmtLoopAux env site cf dry gs ref (skipStringChoice cs2)
              (out ++ invalidPluralMsg) st0
        else if b = SCC_ARG_INDEX then
          let offs := cs.headD 0
          fmtLoopAux env site cf dry gs ref cs.tail out
            ⟨⟨st0.params.parameters, ref + offs, st0.params.next_type⟩, st0.scan⟩
        else if b = SCC_RAW_STRING_POINTER then
          match getNextParameterString st0.params with
          | (.ok s, sp2) =>
            let sub := site false s ⟨sp2, st0.scan⟩
            fmtLoopAux env site cf dry gs ref cs (out ++ sub.1) sub.2
          | (.error _, sp2) =>
            fmtLoopAux env site cf dry gs ref cs (out ++ invalidParamMsg) ⟨sp2, st0.scan⟩
        else if b = SCC_COMMA then
          match getNextParameterNum st0.params with
          | (.ok v, sp2) =>
            fmtLoopAux env site cf dry gs ref cs
              (out ++ formatNumber env.groupSep (toInt64 v)) ⟨sp2, st0.scan⟩
          | (.error _, sp2) =>
            fmtLoopAux env site cf dry gs ref cs (out ++ invalidParamMsg) ⟨sp2, st0.scan⟩
        else if b = SCC_NUM then
          match getNextParameterNum st0.params with
          | (.ok v, sp2) =>
            fmtLoopAux env site cf dry gs ref cs
              (out ++ formatNoCommaNumber (toInt64 v)) ⟨sp2, st0.scan⟩
          | (.error _, sp2) =>
            fmtLoopAux env site cf dry gs ref cs (out ++ invalidParamMsg) ⟨sp2, st0.scan⟩
        else if b = SCC_HEX then
          match getNextParameterNum st0.params with
          | (.ok v, sp2) =>
            fmtLoopAux env site cf dry gs ref cs (out ++ formatHexNumber v) ⟨sp2, st0.scan⟩
          | (.error _, sp2) =>
            fmtLoopAux env site cf dry gs ref cs (out ++ invalidParamMsg) ⟨sp2, st0.scan⟩
        else if b = SCC_BYTES then
          match getNextParameterNum st0.params with
          | (.ok v, sp2) =>
            match formatBytes env.decimalSep (toInt64 v) with
            | some o => fmtLoopAux env site cf dry gs ref cs (out ++ o) ⟨sp2, st0.scan⟩
            | none =>
              fmtLoopAux env site cf dry gs ref cs (out ++ invalidParamMsg) ⟨sp2, st0.scan⟩
          | (.error _, sp2) =>
            fmtLoopAux env site cf dry gs ref cs (out ++ invalidParamMsg) ⟨sp2, st0.scan⟩
        else
          fmtLoopAux env site cf dry gs ref cs (out ++ [b]) st0

/-- `FormatString` (`strings.cpp` lines 1073 to 1104 and the loop): a call
with `dry_run` false first runs the whole loop as a dry run (output
discarded, claimed types populated), restores the parameter cursor to the
offset captured at entry, then runs the real pass. The first argument is
the expansion depth for nested invocations. -/
def formatStringAux (env : FmtEnv) :
    Nat → Bool → Bool → List Nat → FmtState → List Nat × FmtState
  | 0, _, _, _, st => (depthMsg, st)
  | d + 1, dry, gs, t, st =>
    if dry then
      fmtLoopAux env (fun gs2 t2 st2 => formatStringAux env d false gs2 t2 st2)
        (t.length + 1) true gs st.params.offset t [] st
    else
      let orig := st.params.offset
      let dryR := fmtLoopAux env (fun gs2 t2 st2 => formatStringAux env d false gs2 t2 st2)
        (t.length + 1) true gs orig t [] st
      let stD : FmtState :=
        ⟨⟨dryR.2.params.parameters, orig, dryR.2.params.next_type⟩, dryR.2.scan⟩
      fmtLoopAux env (fun gs2 t2 st2 => formatStringAux env d false gs2 t2 st2)
        (t.length + 1) false gs orig t [] stD

/-- `GetStringWithArgs` over caller data: resolve the template (string id 0
falls back to `STR_UNDEFINED`) and format it with fresh parameters. The
tab-based routing of `GetStringWithArgs` is modelled from the spec as the
external text resolver. -/
def getStringWithArgs (env : FmtEnv) (fuel : Nat) (gs : Bool) (id : Nat)
    (ds : List SPData) : List Nat :=
  (formatStringAux env fuel false gs
    (env.getTemplate (if id = 0 then STR_UNDEFINED else id)) ⟨initParams ds, false⟩).1

/-- `interpret(get_template(id), params)` of the spec: one plain formatting
call of a template over fresh parameters. -/
def interpretTemplate (env : FmtEnv) (fuel : Nat) (t : List Nat) (ds : List SPData) :
    List Nat :=
  (formatStringAux env fuel false false t ⟨initParams ds, false⟩).1

/-- `EncodedString::GetDecodedString` (`strings.cpp` lines 208 to 211):
`GetString(STR_JUST_RAW_STRING, this->string)`. -/
def getDecodedString (env : FmtEnv) (fuel : Nat) (enc : List Nat) : List Nat :=
  getStringWithArgs env fuel false STR_JUST_RAW_STRING [SPData.text enc]

/-- A concrete environment for witnesses and counterexamples: string 1 is
the raw-string template, string 2 is the comma-number template. -/
def demoEnv : FmtEnv where
  getTemplate := fun i =>
    if i = STR_JUST_RAW_STRING then [SCC_RAW_STRING_POINTER]
    else if i = 1 then [SCC_RAW_STRING_POINTER]
    else if i = 2 then [SCC_COMMA]
    else []
  groupSep := strCodes ","
  decimalSep := strCodes "."

theorem fmtLoopAux_nil (env : FmtEnv) (site : Bool → List Nat → FmtState → List Nat × FmtState)
    (cf : Nat) (dry gs : Bool) (ref : Nat) (out : List Nat) (st : FmtState) :
    fmtLoopAux env site cf dry gs ref [] out st = (out, st) := by
  cases cf <;> rfl

/-! ### Per-control-code unfolding equations for the loop -/

theorem fmtLoopAux_literal (env : FmtEnv) (site : Bool → List Nat → FmtState → List Nat × FmtState)
    (n : Nat) (dry gs : Bool) (ref : Nat) (b : Nat) (cs out : List Nat) (st : FmtState)
    (h : b < SCC_CONTROL_START ∨ SCC_CONTROL_END < b) :
    fmtLoopAux env site (n + 1) dry gs ref (b :: cs) out st =
      fmtLoopAux env site n dry gs ref cs (out ++ [b]) st := by
  rw [fmtLoopAux]
  rw [if_pos h]

theorem fmtLoopAux_encInternal (env : FmtEnv)
    (site : Bool → List Nat → FmtState → List Nat × FmtState)
    (n : Nat) (dry gs : Bool) (ref : Nat) (cs out : List Nat) (st : FmtState) :
    fmtLoopAux env site (n + 1) dry gs ref (SCC_ENCODED_INTERNAL :: cs) out st =
      (let st0 : FmtState := ⟨setTypeOfNextParameter st.params SCC_ENCODED_INTERNAL, st.scan⟩
       let idc := readIntegerBase16 cs
       if idc.2 ≠ [] ∧ idc.2.headD 0 ≠ SCC_RECORD_SEPARATOR then
         (out ++ invalidEncodedMsg, st0)
       else
         match decodeRecords idc.2 with
         | none => (out ++ invalidSubIdMsg, st0)
         | some ps =>
           let tgt := env.getTemplate (if idc.1 = 0 then STR_UNDEFINED else idc.1)
           let sub := site false tgt ⟨initParams ps, st0.scan⟩
           (out ++ sub.1, ⟨st0.params, sub.2.scan⟩)) := rfl

theorem fmtLoopAux_encGS (env : FmtEnv)
    (site : Bool → List Nat → FmtState → List Nat × FmtState)
    (n : Nat) (dry gs : Bool) (ref : Nat) (cs out : List Nat) (st : FmtState) :
    fmtLoopAux env site (n + 1) dry gs ref (SCC_ENCODED :: cs) out st =
      (let st0 : FmtState := ⟨setTypeOfNextParameter st.params SCC_ENCODED, st.scan⟩
       let idc := readIntegerBase16 cs
       if idc.2 ≠ [] ∧ idc.2.headD 0 ≠ SCC_RECORD_SEPARATOR then
         (out ++ invalidEncodedMsg, st0)
       else if TAB_SIZE_GAMESCRIPT ≤ idc.1 then
         (out ++ invalidStringIdMsg, st0)
       else
         match decodeRecords idc.2 with
         | none => (out ++ invalidSubIdMsg, st0)
         | some ps =>
           let sid := GAMESCRIPT_STRING_BASE + idc.1
           let tgt := env.getTemplate (if sid = 0 then STR_UNDEFINED else sid)
           let sub := site true tgt ⟨initParams ps, st0.scan⟩
           (out ++ sub.1, ⟨st0.params, sub.2.scan⟩)) := by
  rw [fmtLoopAux]
  rw [if_neg (by decide), if_pos (by decide : SCC_ENCODED = SCC_ENCODED ∨
    SCC_ENCODED = SCC_ENCODED_INTERNAL)]
  dsimp only
  rcases h1 : readIntegerBase16 cs with ⟨idv, c1⟩
  by_cases h2 : c1 ≠ [] ∧ c1.headD 0 ≠ SCC_RECORD_SEPARATOR
  · rw [if_pos h2, if_pos h2]
  · rw [if_neg h2, if_neg h2]
    by_cases h3 : TAB_SIZE_GAMESCRIPT ≤ idv
    · rw [if_pos (by exact ⟨by decide, h3⟩), if_pos h3]
    · rw [if_neg (by intro hc; exact h3 hc.2), if_neg h3]
      rcases decodeRecords c1 with _ | ps
      · rfl
      · have hne : GAMESCRIPT_STRING_BASE + idv ≠ 0 := by
          unfold GAMESCRIPT_STRING_BASE; omega
        simp [hne]

theorem fmtLoopAux_genderList (env : FmtEnv)
    (site : Bool → List Nat → FmtState → List Nat × FmtState)
    (n : Nat) (dry gs : Bool) (ref : Nat) (cs out : List Nat) (st : FmtState) :
    fmtLoopAux env site (n + 1) dry gs ref (SCC_GENDER_LIST :: cs) out st =
      (let st0 : FmtState := ⟨setTypeOfNextParameter st.params SCC_GENDER_LIST, st.scan⟩
       let offset := ref + cs.headD 0
       if offset ≥ st0.params.parameters.length then
         let r := parseStringChoice cs.tail 0
         fmtLoopAux env site n dry gs ref r.2 (out ++ invalidGenderMsg ++ r.1) st0
       else if ¬dry ∧ getTypeAtOffset st0.params offset ≠ 0 then
         let sub := site false [getTypeAtOffset st0.params offset]
           ⟨⟨st0.params.parameters.drop offset, 0, 0⟩, true⟩
         let st1 : FmtState :=
           ⟨⟨st0.params.parameters.take offset ++ sub.2.params.parameters,
             st0.params.offset, st0.params.next_type⟩, st0.scan⟩
         let gender := if sub.1.headD 0 = SCC_GENDER_INDEX then sub.1.tail.headD 0 else 0
         let r := parseStringChoice cs.tail gender
         fmtLoopAux env site n dry gs ref r.2 (out ++ r.1) st1
       else
         let r := parseStringChoice cs.tail 0
         fmtLoopAux env site n dry gs ref r.2 (out ++ r.1) st0) := rfl

theorem fmtLoopAux_genderIndex (env : FmtEnv)
    (site : Bool → List Nat → FmtState → List Nat × FmtState)
    (n : Nat) (dry gs : Bool) (ref : Nat) (cs out : List Nat) (st : FmtState) :
    fmtLoopAux env site (n + 1) dry gs ref (SCC_GENDER_INDEX :: cs) out st =
      (let st0 : FmtState := ⟨setTypeOfNextParameter st.params SCC_GENDER_INDEX, st.scan⟩
       if st0.scan then
         fmtLoopAux env site n dry gs ref cs.tail
           (out ++ [SCC_GENDER_INDEX, cs.headD 0]) st0
       else fmtLoopAux env site n dry gs ref cs.tail out st0) := rfl

theorem fmtLoopAux_plural (env : FmtEnv)
    (site : Bool → List Nat → FmtState → List Nat × FmtState)
    (n : Nat) (dry gs : Bool) (ref : Nat) (cs out : List Nat) (st : FmtState) :
    fmtLoopAux env site (n + 1) dry gs ref (SCC_PLURAL_LIST :: cs) out st =
      (let st0 : FmtState := ⟨setTypeOfNextParameter st.params SCC_PLURAL_LIST, st.scan⟩
       let offset := ref + cs.tail.headD 0
       match (if offset < st0.params.parameters.length
              then getNumParamAt st0.params offset else none) with
       | some v =>
         match determinePluralForm (toInt64 v) (cs.headD 0) with
         | some form =>
           let r := parseStringChoice cs.tail.tail form
           fmtLoopAux env site n dry gs ref r.2 (out ++ r.1) st0
         | none =>
           fmtLoopAux env site n dry gs ref (skipStringChoice cs.tail.tail)
             (out ++ notReachedMsg) st0
       | none =>
         fmtLoopAux env site n dry gs ref (skipStringChoice cs.tail.tail)
           (out ++ invalidPluralMsg) st0) := rfl

theorem fmtLoopAux_argIndex (env : FmtEnv)
    (site : Bool → List Nat → FmtState → List Nat × FmtState)
    (n : Nat) (dry gs : Bool) (ref : Nat) (cs out : List Nat) (st : FmtState) :
    fmtLoopAux env site (n + 1) dry gs ref (SCC_ARG_INDEX :: cs) out st =
      fmtLoopAux env site n dry gs ref cs.tail out
        ⟨⟨st.params.parameters, ref + cs.headD 0, SCC_ARG_INDEX⟩, st.scan⟩ := rfl

theorem fmtLoopAux_raw (env : FmtEnv)
    (site : Bool → List Nat → FmtState → List Nat × FmtState)
    (n : Nat) (dry gs : Bool) (ref : Nat) (cs out : List Nat) (st : FmtState) :
    fmtLoopAux env site (n + 1) dry gs ref (SCC_RAW_STRING_POINTER :: cs) out st =
      (match getNextParameterString (setTypeOfNextParameter st.params SCC_RAW_STRING_POINTER) with
       | (.ok s, sp2) =>
         let sub := site false s ⟨sp2, st.scan⟩
         fmtLoopAux env site n dry gs ref cs (out ++ sub.1) sub.2
       | (.error _, sp2) =>
         fmtLoopAux env site n dry gs ref cs (out ++ invalidParamMsg) ⟨sp2, st.scan⟩) := rfl

theorem fmtLoopAux_comma (env : FmtEnv)
    (site : Bool → List Nat → FmtState → List Nat × FmtState)
    (n : Nat) (dry gs : Bool) (ref : Nat) (cs out : List Nat) (st : FmtState) :
    fmtLoopAux env site (n + 1) dry gs ref (SCC_COMMA :: cs) out st =
      (match getNextParameterNum (setTypeOfNextParameter st.params SCC_COMMA) with
       | (.ok v, sp2) =>
         fmtLoopAux env site n dry gs ref cs
           (out ++ formatNumber env.groupSep (toInt64 v)) ⟨sp2, st.scan⟩
       | (.error _, sp2) =>
         fmtLoopAux env site n dry gs ref cs (out ++ invalidParamMsg) ⟨sp2, st.scan⟩) := rfl

theorem fmtLoopAux_num (env : FmtEnv)
    (site : Bool → List Nat → FmtState → List Nat × FmtState)
    (n : Nat) (dry gs : Bool) (ref : Nat) (cs out : List Nat) (st : FmtState) :
    fmtLoopAux env site (n + 1) dry gs ref (SCC_NUM :: cs) out st =
      (match getNextParameterNum (setTypeOfNextParameter st.params SCC_NUM) with
       | (.ok v, sp2) =>
         fmtLoopAux env site n dry gs ref cs
           (out ++ formatNoCommaNumber (toInt64 v)) ⟨sp2, st.scan⟩
       | (.error _, sp2) =>
         fmtLoopAux env site n dry gs ref cs (out ++ invalidParamMsg) ⟨sp2, st.scan⟩) := rfl

theorem fmtLoopAux_hex (env : FmtEnv)
    (site : Bool → List Nat → FmtState → List Nat × FmtState)
    (n : Nat) (dry gs : Bool) (ref : Nat) (cs out : List Nat) (st : FmtState) :
    fmtLoopAux env site (n + 1) dry gs ref (SCC_HEX :: cs) out st =
      (match getNextParameterNum (setTypeOfNextParameter st.params SCC_HEX) with
       | (.ok v, sp2) =>
         fmtLoopAux env site n dry gs ref cs (out ++ formatHexNumber v) ⟨sp2, st.scan⟩
       | (.error _, sp2) =>
         fmtLoopAux env site n dry gs ref cs (out ++ invalidParamMsg) ⟨sp2, st.scan⟩) := rfl

theorem fmtLoopAux_bytes (env : FmtEnv)
    (site : Bool → List Nat → FmtState → List Nat × FmtState)
    (n : Nat) (dry gs : Bool) (ref : Nat) (cs out : List Nat) (st : FmtState) :
    fmtLoopAux env site (n + 1) dry gs ref (SCC_BYTES :: cs) out st =
      (match getNextParameterNum (setTypeOfNextParameter st.params SCC_BYTES) with
       | (.ok v, sp2) =>
         (match formatBytes env.decimalSep (toInt64 v) with
          | some o => fmtLoopAux env site n dry gs ref cs (out ++ o) ⟨sp2, st.scan⟩
          | none =>
            fmtLoopAux env site n dry gs ref cs (out ++ invalidParamMsg) ⟨sp2, st.scan⟩)
       | (.error _, sp2) =>
         fmtLoopAux env site n dry gs ref cs (out ++ invalidParamMsg) ⟨sp2, st.scan⟩) := rfl

theorem fmtLoopAux_default (env : FmtEnv)
    (site : Bool → List Nat → FmtState → List Nat × FmtState)
    (n : Nat) (dry gs : Bool) (ref : Nat) (b : Nat) (cs out : List Nat) (st : FmtState)
    (hr : ¬(b < SCC_CONTROL_START ∨ SCC_CONTROL_END < b))
    (h1 : ¬(b = SCC_ENCODED ∨ b = SCC_ENCODED_INTERNAL)) (h2 : b ≠ SCC_GENDER_LIST)
    (h3 : b ≠ SCC_GENDER_INDEX) (h4 : b ≠ SCC_PLURAL_LIST) (h5 : b ≠ SCC_ARG_INDEX)
    (h6 : b ≠ SCC_RAW_STRING_POINTER) (h7 : b ≠ SCC_COMMA) (h8 : b ≠ SCC_NUM)
    (h9 : b ≠ SCC_HEX) (h10 : b ≠ SCC_BYTES) :
    fmtLoopAux env site (n + 1) dry gs ref (b :: cs) out st =
      fmtLoopAux env site n dry gs ref cs (out ++ [b])
        ⟨setTypeOfNextParameter st.params b, st.scan⟩ := by
  rw [fmtLoopAux]
  rw [if_neg hr, if_neg h1, if_neg h2, if_neg h3, if_neg h4, if_neg h5, if_neg h6,
    if_neg h7, if_neg h8, if_neg h9, if_neg h10]

/-- The interpreter loop restores the gender-scan flag: the only writer is
the scoped set-and-restore around the gender sub-format. -/
theorem fmtLoopAux_scan (env : FmtEnv) (site : Bool → List Nat → FmtState → List Nat × FmtState)
    (hsite : ∀ gs t st2, (site gs t st2).2.scan = st2.scan) :
    ∀ (cf : Nat) (dry gs : Bool) (ref : Nat) (c out : List Nat) (st : FmtState),
      (fmtLoopAux env site cf dry gs ref c out st).2.scan = st.scan := by
  intro cf
  induction cf with
  | zero => intros; rfl
  | succ n ih =>
    intro dry gs ref c out st
    cases c with
    | nil => rfl
    | cons b cs =>
      by_cases hr : b < SCC_CONTROL_START ∨ SCC_CONTROL_END < b
      · rw [fmtLoopAux_literal env site n dry gs ref b cs out st hr]
        exact ih ..
      by_cases he1 : b = SCC_ENCODED
      · subst he1
        rw [fmtLoopAux_encGS]
        try dsimp only
        split
        · rfl
        · split
          · rfl
          · split
            · rfl
            · try dsimp only
              rw [hsite]
      by_cases he2 : b = SCC_ENCODED_INTERNAL
      · subst he2
        rw [fmtLoopAux_encInternal]
        try dsimp only
        split
        · rfl
        · split
          · rfl
          · try dsimp only
            rw [hsite]
      by_cases hg : b = SCC_GENDER_LIST
      · subst hg
        rw [fmtLoopAux_genderList]
        try dsimp only
        split
        · exact ih ..
        · split
          · rw [ih]
          · rw [ih]
      by_cases hgi : b = SCC_GENDER_INDEX
      · subst hgi
        rw [fmtLoopAux_genderIndex]
        try dsimp only
        split
        · rw [ih]
        · rw [ih]
      by_cases hp : b = SCC_PLURAL_LIST
      · subst hp
        rw [fmtLoopAux_plural]
        try dsimp only
        split
        · split
          · rw [ih]
          · rw [ih]
        · rw [ih]
      by_cases ha : b = SCC_ARG_INDEX
      · subst ha
        rw [fmtLoopAux_argIndex]
        rw [ih]
      by_cases hraw : b = SCC_RAW_STRING_POINTER
      · subst hraw
        rw [fmtLoopAux_raw]
        try dsimp only
        split
        · rw [ih]
          try dsimp only
          rw [hsite]
        · rw [ih]
      by_cases hc : b = SCC_COMMA
      · subst hc
        rw [fmtLoopAux_comma]
        try dsimp only
        split
        · rw [ih]
        · rw [ih]
      by_cases hn : b = SCC_NUM
      · subst hn
        rw [fmtLoopAux_num]
        try dsimp only
        split
        · rw [ih]
        · rw [ih]
      by_cases hh : b = SCC_HEX
      · subst hh
        rw [fmtLoopAux_hex]
        try dsimp only
        split
        · rw [ih]
        · rw [ih]
      by_cases hb : b = SCC_BYTES
      · subst hb
        rw [fmtLoopAux_bytes]
        try dsimp only
        split
        · split
          · rw [ih]
          · rw [ih]
        · rw [ih]
      rw [fmtLoopAux_default env site n dry gs ref b cs out st hr
        (by tauto) hg hgi hp ha hraw hc hn hh hb]
      exact ih ..

/-- `FormatString` restores the gender-scan flag. -/
theorem formatStringAux_scan (env : FmtEnv) :
    ∀ (d : Nat) (dry gs : Bool) (t : List Nat) (st : FmtState),
      (formatStringAux env d dry gs t st).2.scan = st.scan := by
  intro d
  induction d with
  | zero => intros; rfl
  | succ n ih =>
    intro dry gs t st
    have hsite : ∀ gs2 t2 st2,
        ((fun gs2 t2 st2 => formatStringAux env n false gs2 t2 st2) gs2 t2 st2).2.scan =
          st2.scan := fun gs2 t2 st2 => ih false gs2 t2 st2
    show (formatStringAux env (n + 1) dry gs t st).2.scan = st.scan
    rw [formatStringAux]
    split
    · exact fmtLoopAux_scan env _ hsite ..
    · dsimp only
      rw [fmtLoopAux_scan env _ hsite]
      dsimp only
      rw [fmtLoopAux_scan env _ hsite]

/-- A run of plain literal code points is copied to the output verbatim by
the loop, any pass, without touching the state. -/
theorem fmtLoopAux_literals (env : FmtEnv)
    (site : Bool → List Nat → FmtState → List Nat × FmtState) :
    ∀ (l : List Nat), (∀ x ∈ l, x < SCC_CONTROL_START) →
      ∀ (cf : Nat), l.length ≤ cf → ∀ (dry gs : Bool) (ref : Nat) (out : List Nat)
        (st : FmtState), fmtLoopAux env site cf dry gs ref l out st = (out ++ l, st) := by
  intro l
  induction l with
  | nil =>
    intro _ cf _ dry gs ref out st
    simpa using fmtLoopAux_nil env site cf dry gs ref out st
  | cons a as ih =>
    intro hl cf hcf dry gs ref out st
    obtain ⟨n, rfl⟩ : ∃ n, cf = n + 1 := ⟨cf - 1, by simp at hcf; omega⟩
    rw [fmtLoopAux_literal env site n dry gs ref a as out st (Or.inl (hl a (by simp)))]
    rw [ih (fun x hx => hl x (by simp [hx])) n (by simp at hcf; omega)]
    simp

/-- A full `FormatString` call on a literal-only template copies it and
leaves the state unchanged (both the dry and the real pass are the
identity on the state). -/
theorem formatStringAux_literals (env : FmtEnv) (d : Nat) (dry gs : Bool) (s : List Nat)
    (hlit : ∀ x ∈ s, x < SCC_CONTROL_START) (st : FmtState) :
    formatStringAux env (d + 1) dry gs s st = (s, st) := by
  rw [formatStringAux]
  split
  · rw [fmtLoopAux_literals env _ s hlit (s.length + 1) (by omega)]
    simp
  · try dsimp only
    rw [fmtLoopAux_literals env _ s hlit (s.length + 1) (by omega)]
    try dsimp only
    rw [fmtLoopAux_literals env _ s hlit (s.length + 1) (by omega)]
    simp

/-- Unfolding of a real (non-dry) `FormatString` call: dry pass, cursor
restore, real pass. -/
theorem formatStringAux_real (env : FmtEnv) (d : Nat) (gs : Bool) (t : List Nat)
    (st : FmtState) :
    formatStringAux env (d + 1) false gs t st =
      (let dryR := fmtLoopAux env (fun gs2 t2 st2 => formatStringAux env d false gs2 t2 st2)
        (t.length + 1) true gs st.params.offset t [] st
       fmtLoopAux env (fun gs2 t2 st2 => formatStringAux env d false gs2 t2 st2)
        (t.length + 1) false gs st.params.offset t []
        ⟨⟨dryR.2.params.parameters, st.params.offset, dryR.2.params.next_type⟩,
          dryR.2.scan⟩) := rfl

/-- The decode branch on a well-formed encoding: the id and the parameters
are recovered exactly, and the target string is formatted over fresh
parameters. -/
theorem fmtLoopAux_enc_wf (env : FmtEnv)
    (site : Bool → List Nat → FmtState → List Nat × FmtState)
    (n : Nat) (dry gs : Bool) (ref : Nat) (out : List Nat) (st : FmtState)
    (id : Nat) (params : List SPData)
    (hwf : ∀ p ∈ params, wfData p) (hid : id ≠ 0) :
    fmtLoopAux env site (n + 1) dry gs ref
      (SCC_ENCODED_INTERNAL :: (toHex id ++ encodeParams params)) out st =
      (out ++ (site false (env.getTemplate id) ⟨initParams params, st.scan⟩).1,
        ⟨setTypeOfNextParameter st.params SCC_ENCODED_INTERNAL,
          (site false (env.getTemplate id) ⟨initParams params, st.scan⟩).2.scan⟩) := by
  rw [fmtLoopAux_encInternal]
  dsimp only
  rw [readIntegerBase16_toHex id _ (encodeParams_not_hex params)]
  dsimp only
  rw [if_neg (by
    rcases encodeParams_head params with h | h
    · exact fun hc => hc.2 h
    · exact fun hc => hc.1 h)]
  rw [decodeRecords_encode params hwf]
  dsimp only
  rw [if_neg hid]

/-- A full `FormatString` call on a well-formed encoding equals the plain
formatting of the recovered id over the recovered parameters (dry and real
pass produce the same nested call; the caller state is untouched except
the `next_type` mark of the consumed control code). -/
theorem formatStringAux_enc (env : FmtEnv) (d : Nat) (gs : Bool) (id : Nat)
    (params : List SPData) (hwf : ∀ p ∈ params, wfData p) (hid : id ≠ 0)
    (st : FmtState) (hscan : st.scan = false) :
    formatStringAux env (d + 1) false gs (getEncodedStringWithArgs id params) st =
      ((formatStringAux env d false false (env.getTemplate id)
          ⟨initParams params, false⟩).1,
        ⟨setTypeOfNextParameter st.params SCC_ENCODED_INTERNAL, false⟩) := by
  have ht : getEncodedStringWithArgs id params =
      SCC_ENCODED_INTERNAL :: (toHex id ++ encodeParams params) := rfl
  rw [formatStringAux_real]
  dsimp only
  rw [ht]
  rw [fmtLoopAux_enc_wf env _ _ true gs st.params.offset [] st id params hwf hid]
  dsimp only [setTypeOfNextParameter]
  rw [hscan, formatStringAux_scan]
  rw [fmtLoopAux_enc_wf env _ _ false gs st.params.offset [] _ id params hwf hid]
  dsimp only [setTypeOfNextParameter]
  rw [formatStringAux_scan]
  rfl

/-- Decoding what `encode` produced formats the recovered template over the
recovered parameters: the common round-trip core of the codec claims. -/
theorem decode_of_encode (env : FmtEnv) (d : Nat) (id : Nat) (params : List SPData)
    (henv : env.getTemplate STR_JUST_RAW_STRING = [SCC_RAW_STRING_POINTER])
    (hid : id ≠ 0) (hwf : ∀ p ∈ params, wfData p) :
    getDecodedString env (d + 2) (getEncodedStringWithArgs id params) =
      interpretTemplate env d (env.getTemplate id) params := by
  unfold getDecodedString getStringWithArgs interpretTemplate
  rw [if_neg (by decide : ¬(STR_JUST_RAW_STRING = 0))]
  rw [henv]
  rw [show d + 2 = (d + 1) + 1 from rfl]
  rw [formatStringAux_real]
  dsimp only [initParams, initSlot, List.map]
  have hdryStep : fmtLoopAux env
      (fun gs2 t2 st2 => formatStringAux env (d + 1) false gs2 t2 st2)
      (([SCC_RAW_STRING_POINTER] : List Nat).length + 1) true false 0
      [SCC_RAW_STRING_POINTER] []
      ⟨⟨[⟨.text (getEncodedStringWithArgs id params), 0⟩], 0, 0⟩, false⟩ =
      ((formatStringAux env d false false (env.getTemplate id)
          ⟨initParams params, false⟩).1,
        ⟨⟨[⟨.text (getEncodedStringWithArgs id params), SCC_RAW_STRING_POINTER⟩], 1,
          SCC_ENCODED_INTERNAL⟩, false⟩) := by
    rw [fmtLoopAux_raw]
    dsimp only
    rw [show getNextParameterString
        (setTypeOfNextParameter
          (⟨[⟨.text (getEncodedStringWithArgs id params), 0⟩], 0, 0⟩ : StringParameters)
          SCC_RAW_STRING_POINTER) =
        (.ok (getEncodedStringWithArgs id params),
          ⟨[⟨.text (getEncodedStringWithArgs id params), SCC_RAW_STRING_POINTER⟩], 1, 0⟩)
      from rfl]
    dsimp only
    rw [formatStringAux_enc env d false id params hwf hid _ rfl]
    dsimp only [setTypeOfNextParameter]
    rw [fmtLoopAux_nil]
    simp
  rw [hdryStep]
  dsimp only
  rw [fmtLoopAux_raw]
  dsimp only
  rw [show getNextParameterString
      (setTypeOfNextParameter
        (⟨[⟨.text (getEncodedStringWithArgs id params), SCC_RAW_STRING_POINTER⟩], 0,
          SCC_ENCODED_INTERNAL⟩ : StringParameters)
        SCC_RAW_STRING_POINTER) =
      (.ok (getEncodedStringWithArgs id params),
        ⟨[⟨.text (getEncodedStringWithArgs id params), SCC_RAW_STRING_POINTER⟩], 1, 0⟩)
    from rfl]
  dsimp only
  rw [formatStringAux_enc env d false id params hwf hid _ rfl]
  dsimp only
  rw [fmtLoopAux_nil]
  rfl

/-- The loop on a jump past the end of the parameters followed by a
numeric code and literals: the failed read is diagnosed in place and the
literals still render, on any pass. -/
theorem fmtLoopAux_jump_comma_literals (env : FmtEnv)
    (site : Bool → List Nat → FmtState → List Nat × FmtState)
    (k : Nat) (suffix : List Nat) (hsuf : ∀ x ∈ suffix, x < SCC_CONTROL_START)
    (cf : Nat) (hcf : suffix.length + 3 ≤ cf) (dry gs : Bool) (ref : Nat)
    (out : List Nat) (st : FmtState)
    (hoob : st.params.parameters.length ≤ ref + k) :
    fmtLoopAux env site cf dry gs ref (SCC_ARG_INDEX :: k :: SCC_COMMA :: suffix) out st =
      (out ++ invalidParamMsg ++ suffix,
        ⟨⟨st.params.parameters, ref + k, SCC_COMMA⟩, st.scan⟩) := by
  obtain ⟨n, rfl⟩ : ∃ n, cf = n + 1 := ⟨cf - 1, by omega⟩
  rw [fmtLoopAux_argIndex]
  dsimp only [List.headD_cons, List.tail_cons]
  obtain ⟨m, rfl⟩ : ∃ m, n = m + 1 := ⟨n - 1, by simp at hcf; omega⟩
  rw [fmtLoopAux_comma]
  have hread : getNextParameterNum
      (setTypeOfNextParameter
        (⟨st.params.parameters, ref + k, SCC_ARG_INDEX⟩ : StringParameters) SCC_COMMA) =
      (.error .outOfRange, ⟨st.params.parameters, ref + k, SCC_COMMA⟩) := by
    unfold getNextParameterNum getNextParameterReference setTypeOfNextParameter
    dsimp only
    rw [dif_pos hoob]
  rw [hread]
  dsimp only
  rw [fmtLoopAux_literals env site suffix hsuf m (by simp at hcf; omega)]

/-- C3: when a control code parameter read fails (here a template jumping
the cursor to slot `k` with only `ds.length ≤ k` parameters supplied before
a numeric code), `FormatString` replaces only that one control code output
with the bracketed diagnostic and continues interpreting the remaining
template, so subsequent literal text still appears: the result is never an
empty or aborted string. -/
theorem formatString_invalid_parameter (env : FmtEnv) (d k : Nat) (suffix : List Nat)
    (ds : List SPData) (hk : k ≤ 255) (hlen : ds.length ≤ k)
    (hsuf : ∀ x ∈ suffix, x < SCC_CONTROL_START) :
    interpretTemplate env (d + 1) (SCC_ARG_INDEX :: k :: SCC_COMMA :: suffix) ds =
      invalidParamMsg ++ suffix ∧
    interpretTemplate env (d + 1) (SCC_ARG_INDEX :: k :: SCC_COMMA :: suffix) ds ≠ [] := by
  have heval : interpretTemplate env (d + 1) (SCC_ARG_INDEX :: k :: SCC_COMMA :: suffix) ds =
      invalidParamMsg ++ suffix := by
    unfold interpretTemplate
    rw [formatStringAux_real]
    dsimp only [initParams]
    rw [fmtLoopAux_jump_comma_literals env _ k suffix hsuf _ (by simp) true false 0 []
      _ (by simp; omega)]
    dsimp only
    rw [fmtLoopAux_jump_comma_literals env _ k suffix hsuf _ (by simp) false false 0 []
      _ (by simp; omega)]
    simp
  exact ⟨heval, by
    rw [heval]
    simp [invalidParamMsg, strCodes]⟩

/-- Witness for C3: slot 5 referenced with three parameters supplied,
trailing literal text preserved. -/
theorem formatString_invalid_parameter_witness :
    ((5 : Nat) ≤ 255 ∧ ([SPData.num 1, SPData.num 2, SPData.num 3] : List SPData).length ≤ 5 ∧
      ∀ x ∈ [111, 107], x < SCC_CONTROL_START) ∧
    (interpretTemplate demoEnv 2
        (SCC_ARG_INDEX :: 5 :: SCC_COMMA :: [111, 107])
        [SPData.num 1, SPData.num 2, SPData.num 3] =
      invalidParamMsg ++ [111, 107] ∧
    interpretTemplate demoEnv 2
        (SCC_ARG_INDEX :: 5 :: SCC_COMMA :: [111, 107])
        [SPData.num 1, SPData.num 2, SPData.num 3] ≠ []) :=
  ⟨⟨by decide, by decide, by decide⟩,
    formatString_invalid_parameter demoEnv 1 5 [111, 107]
      [SPData.num 1, SPData.num 2, SPData.num 3] (by decide) (by decide) (by decide)⟩

/-- The decode branch when the stream after the hex id neither ends nor
continues with a record separator: the diagnostic marker is produced. -/
theorem fmtLoopAux_enc_invalid (env : FmtEnv)
    (site : Bool → List Nat → FmtState → List Nat × FmtState)
    (n : Nat) (dry gs : Bool) (ref : Nat) (out : List Nat) (st : FmtState)
    (id : Nat) (bad : List Nat)
    (hb0 : isHexDigit (bad.headD 0) = false) (hb1 : bad ≠ [])
    (hb2 : bad.headD 0 ≠ SCC_RECORD_SEPARATOR) :
    fmtLoopAux env site (n + 1) dry gs ref
      (SCC_ENCODED_INTERNAL :: (toHex id ++ bad)) out st =
      (out ++ invalidEncodedMsg,
        ⟨setTypeOfNextParameter st.params SCC_ENCODED_INTERNAL, st.scan⟩) := by
  rw [fmtLoopAux_encInternal]
  dsimp only
  rw [readIntegerBase16_toHex id bad (Or.inl hb0)]
  dsimp only
  rw [if_pos ⟨hb1, hb2⟩]

/-- The wrapper evaluation of `GetDecodedString`: if the inner formatting
of the stored text behaves as `hinner` says (preserving the single slot and
the flag), the decoded string is that inner output. -/
theorem getDecodedString_eval (env : FmtEnv) (d : Nat) (E O : List Nat) (nt2 : Nat)
    (henv : env.getTemplate STR_JUST_RAW_STRING = [SCC_RAW_STRING_POINTER])
    (hinner : formatStringAux env (d + 1) false false E
        ⟨⟨[⟨.text E, SCC_RAW_STRING_POINTER⟩], 1, 0⟩, false⟩ =
      (O, ⟨⟨[⟨.text E, SCC_RAW_STRING_POINTER⟩], 1, nt2⟩, false⟩)) :
    getDecodedString env (d + 2) E = O := by
  unfold getDecodedString getStringWithArgs
  rw [if_neg (by decide : ¬(STR_JUST_RAW_STRING = 0))]
  rw [henv]
  rw [show d + 2 = (d + 1) + 1 from rfl]
  rw [formatStringAux_real]
  dsimp only [initParams, initSlot, List.map]
  have hdryStep : fmtLoopAux env
      (fun gs2 t2 st2 => formatStringAux env (d + 1) false gs2 t2 st2)
      (([SCC_RAW_STRING_POINTER] : List Nat).length + 1) true false 0
      [SCC_RAW_STRING_POINTER] []
      ⟨⟨[⟨.text E, 0⟩], 0, 0⟩, false⟩ =
      (O, ⟨⟨[⟨.text E, SCC_RAW_STRING_POINTER⟩], 1, nt2⟩, false⟩) := by
    rw [fmtLoopAux_raw]
    dsimp only
    rw [show getNextParameterString
        (setTypeOfNextParameter
          (⟨[⟨.text E, 0⟩], 0, 0⟩ : StringParameters) SCC_RAW_STRING_POINTER) =
        (.ok E, ⟨[⟨.text E, SCC_RAW_STRING_POINTER⟩], 1, 0⟩) from rfl]
    dsimp only
    rw [hinner]
    dsimp only
    rw [fmtLoopAux_nil]
    simp
  rw [hdryStep]
  dsimp only
  rw [fmtLoopAux_raw]
  dsimp only
  rw [show getNextParameterString
      (setTypeOfNextParameter
        (⟨[⟨.text E, SCC_RAW_STRING_POINTER⟩], 0, nt2⟩ : StringParameters)
        SCC_RAW_STRING_POINTER) =
      (.ok E, ⟨[⟨.text E, SCC_RAW_STRING_POINTER⟩], 1, 0⟩) from ?hread2]
  case hread2 =>
    unfold getNextParameterString getNextParameterReference setTypeOfNextParameter
    try dsimp only
    rw [dif_neg (by simp)]
    try dsimp only
    rw [if_neg (by intro hc; exact hc.2 rfl)]
    rfl
  dsimp only
  rw [hinner]
  dsimp only
  rw [fmtLoopAux_nil]
  rfl

/-- A full `FormatString` call on a malformed encoding (garbage after the
hex id) produces exactly the diagnostic marker. -/
theorem formatStringAux_enc_invalid (env : FmtEnv) (d : Nat) (gs : Bool) (id : Nat)
    (bad : List Nat) (hb0 : isHexDigit (bad.headD 0) = false) (hb1 : bad ≠ [])
    (hb2 : bad.headD 0 ≠ SCC_RECORD_SEPARATOR) (st : FmtState) :
    formatStringAux env (d + 1) false gs (SCC_ENCODED_INTERNAL :: (toHex id ++ bad)) st =
      (invalidEncodedMsg,
        ⟨setTypeOfNextParameter st.params SCC_ENCODED_INTERNAL, st.scan⟩) := by
  rw [formatStringAux_real]
  dsimp only
  rw [fmtLoopAux_enc_invalid env _ _ true gs st.params.offset [] st id bad hb0 hb1 hb2]
  dsimp only [setTypeOfNextParameter]
  rw [fmtLoopAux_enc_invalid env _ _ false gs st.params.offset [] _ id bad hb0 hb1 hb2]
  rfl

/-- C5 (amended): a malformed encoded input whose stream after the hex id
neither ends nor continues with a record separator decodes to the visible
bracketed diagnostic, a non-empty string, rather than propagating an error
or producing an empty result. -/
theorem decode_malformed_diagnostic (env : FmtEnv) (d id : Nat) (bad : List Nat)
    (henv : env.getTemplate STR_JUST_RAW_STRING = [SCC_RAW_STRING_POINTER])
    (hb0 : isHexDigit (bad.headD 0) = false) (hb1 : bad ≠ [])
    (hb2 : bad.headD 0 ≠ SCC_RECORD_SEPARATOR) :
    getDecodedString env (d + 2) (SCC_ENCODED_INTERNAL :: (toHex id ++ bad)) =
      invalidEncodedMsg ∧ invalidEncodedMsg ≠ [] := by
  refine ⟨?_, by decide⟩
  exact getDecodedString_eval env d _ invalidEncodedMsg SCC_ENCODED_INTERNAL henv
    (formatStringAux_enc_invalid env d false id bad hb0 hb1 hb2 _)

/-- Witness for C5 at a concrete malformed input. -/
theorem decode_malformed_diagnostic_witness :
    (demoEnv.getTemplate STR_JUST_RAW_STRING = [SCC_RAW_STRING_POINTER] ∧
      isHexDigit (([103] : List Nat).headD 0) = false ∧ ([103] : List Nat) ≠ [] ∧
      ([103] : List Nat).headD 0 ≠ SCC_RECORD_SEPARATOR) ∧
    (getDecodedString demoEnv 3 (SCC_ENCODED_INTERNAL :: (toHex 1 ++ [103])) =
      invalidEncodedMsg ∧ invalidEncodedMsg ≠ []) :=
  ⟨⟨rfl, by decide, by decide, by decide⟩,
    decode_malformed_diagnostic demoEnv 1 1 [103] rfl (by decide) (by decide) (by decide)⟩

/-- C5 counterexample: the claim says malformed input yields an empty
result; on this malformed input the decode yields the non-empty diagnostic
text instead. -/
theorem decode_malformed_counterexample :
    getDecodedString demoEnv 3 [SCC_ENCODED_INTERNAL, 49, 103] = invalidEncodedMsg ∧
    getDecodedString demoEnv 3 [SCC_ENCODED_INTERNAL, 49, 103] ≠ [] := by
  refine ⟨by decide, by decide⟩


/-- C1 (amended): for every string id (nonzero, within the 32-bit id space)
and every parameter list accepted by `encode` whose text parameters contain
no record-separator code point, decoding the encoded string yields exactly
the text of interpreting the template for that id with those parameters. -/
theorem encode_decode_roundtrip (env : FmtEnv) (d : Nat) (id : Nat) (params : List SPData)
    (henv : env.getTemplate STR_JUST_RAW_STRING = [SCC_RAW_STRING_POINTER])
    (hid : id ≠ 0) (hid32 : id < 2 ^ 32) (hwf : ∀ p ∈ params, wfData p) :
    getDecodedString env (d + 2) (getEncodedStringWithArgs id params) =
      interpretTemplate env d (env.getTemplate id) params :=
  decode_of_encode env d id params henv hid hwf

/-- Witness for C1 at id 2 with one numeric parameter. -/
theorem encode_decode_roundtrip_witness :
    (demoEnv.getTemplate STR_JUST_RAW_STRING = [SCC_RAW_STRING_POINTER] ∧
      (2 : Nat) ≠ 0 ∧ (2 : Nat) < 2 ^ 32 ∧ ∀ p ∈ [SPData.num 77], wfData p) ∧
    getDecodedString demoEnv 3 (getEncodedStringWithArgs 2 [SPData.num 77]) =
      interpretTemplate demoEnv 1 (demoEnv.getTemplate 2) [SPData.num 77] :=
  ⟨⟨rfl, by decide, by decide, by decide⟩,
    encode_decode_roundtrip demoEnv 1 2 [SPData.num 77] rfl (by decide) (by decide)
      (by decide)⟩

/-- C1 counterexample: a text parameter containing the record separator is
accepted by `encode` (the debug assertion only checks the first code
point), but the separator splits the record on decode, so the round trip
fails. -/
theorem encode_decode_roundtrip_counterexample :
    getDecodedString demoEnv 6
        (getEncodedStringWithArgs 1 [SPData.text [97, SCC_RECORD_SEPARATOR]]) ≠
      interpretTemplate demoEnv 4 (demoEnv.getTemplate 1)
        [SPData.text [97, SCC_RECORD_SEPARATOR]] := by
  decide

/-- C2 (amended): over well-formed parameters (text without the record
separator, final parameter not empty), `ReplaceParam` at an in-bounds index
splices exactly the new value and the decoded text reflects the updated
list; an out-of-bounds index or an undecodable original yields the empty
encoded value. -/
theorem replaceParam_spec (env : FmtEnv) (d : Nat) (id : Nat) (params : List SPData)
    (i : Nat) (v : SPData)
    (henv : env.getTemplate STR_JUST_RAW_STRING = [SCC_RAW_STRING_POINTER])
    (hid : id ≠ 0) (hid32 : id < 2 ^ 32)
    (hwf : ∀ p ∈ params, wfData p) (hv : wfData v)
    (hlast : params.getLast? ≠ some SPData.empty) :
    (i < params.length →
      replaceParam (getEncodedStringWithArgs id params) i v =
        getEncodedStringWithArgs id (params.set i v) ∧
      getDecodedString env (d + 2) (replaceParam (getEncodedStringWithArgs id params) i v) =
        interpretTemplate env d (env.getTemplate id) (params.set i v)) ∧
    (params.length ≤ i → replaceParam (getEncodedStringWithArgs id params) i v = []) ∧
    (∀ bad : List Nat, bad.headD 0 ≠ SCC_ENCODED_INTERNAL → replaceParam bad i v = []) := by
  have hparse := replaceParamParse_encode id params hwf hlast
  refine ⟨?_, ?_, ?_⟩
  · intro hi
    have hrepl : replaceParam (getEncodedStringWithArgs id params) i v =
        getEncodedStringWithArgs id (params.set i v) := by
      unfold replaceParam
      rw [hparse]
      dsimp only
      rw [if_pos hi]
    refine ⟨hrepl, ?_⟩
    rw [hrepl]
    exact decode_of_encode env d id (params.set i v) henv hid
      (fun p hp => by
        rcases List.mem_or_eq_of_mem_set hp with h | h
        · exact hwf p h
        · exact h ▸ hv)
  · intro hi
    unfold replaceParam
    rw [hparse]
    dsimp only
    rw [if_neg (by omega)]
  · intro bad hbad
    unfold replaceParam
    cases bad with
    | nil => rfl
    | cons c0 rest =>
      simp only [List.headD_cons] at hbad
      rw [show replaceParamParse (c0 :: rest) = none by
        unfold replaceParamParse
        dsimp only
        rw [if_neg hbad]]

/-- Witness for C2: replacing index 0 of a two-parameter encoding. -/
theorem replaceParam_spec_witness :
    (demoEnv.getTemplate STR_JUST_RAW_STRING = [SCC_RAW_STRING_POINTER] ∧
      (2 : Nat) ≠ 0 ∧ (2 : Nat) < 2 ^ 32 ∧
      (∀ p ∈ [SPData.num 5, SPData.num 6], wfData p) ∧ wfData (SPData.num 9) ∧
      ([SPData.num 5, SPData.num 6] : List SPData).getLast? ≠ some SPData.empty) ∧
    ((0 < ([SPData.num 5, SPData.num 6] : List SPData).length →
      replaceParam (getEncodedStringWithArgs 2 [SPData.num 5, SPData.num 6]) 0 (SPData.num 9) =
        getEncodedStringWithArgs 2 ([SPData.num 5, SPData.num 6].set 0 (SPData.num 9)) ∧
      getDecodedString demoEnv 3
          (replaceParam (getEncodedStringWithArgs 2 [SPData.num 5, SPData.num 6]) 0
            (SPData.num 9)) =
        interpretTemplate demoEnv 1 (demoEnv.getTemplate 2)
          ([SPData.num 5, SPData.num 6].set 0 (SPData.num 9))) ∧
    (([SPData.num 5, SPData.num 6] : List SPData).length ≤ 0 →
      replaceParam (getEncodedStringWithArgs 2 [SPData.num 5, SPData.num 6]) 0 (SPData.num 9) =
        []) ∧
    (∀ bad : List Nat, bad.headD 0 ≠ SCC_ENCODED_INTERNAL →
      replaceParam bad 0 (SPData.num 9) = [])) :=
  ⟨⟨rfl, by decide, by decide, by decide, by decide, by decide⟩,
    replaceParam_spec demoEnv 1 2 [SPData.num 5, SPData.num 6] 0 (SPData.num 9) rfl
      (by decide) (by decide) (by decide) (by decide) (by decide)⟩

/-- C2 counterexample: an encoding built from the single empty parameter
has one in-bounds position, yet `ReplaceParam` at index 0 returns the empty
encoded value (the trailing empty record is consumed together with its
separator by the `SKIP_ONE_SEPARATOR` read, so the splice loop sees no
parameters), and the decoded result does not reflect the new value. -/
theorem replaceParam_counterexample :
    0 < ([SPData.empty] : List SPData).length ∧
    replaceParam (getEncodedStringWithArgs 2 [SPData.empty]) 0 (SPData.num 99) = [] ∧
    getDecodedString demoEnv 5
        (replaceParam (getEncodedStringWithArgs 2 [SPData.empty]) 0 (SPData.num 99)) ≠
      interpretTemplate demoEnv 3 (demoEnv.getTemplate 2) [SPData.num 99] := by
  refine ⟨by decide, by decide, by decide⟩

/-- `ParseStringChoice` with an in-range form emits exactly that sub-string
and consumes the whole block. -/
theorem parseStringChoice_in_range (subs : List (List Nat)) (form : Nat) (rest : List Nat)
    (hform : form < subs.length) :
    parseStringChoice (mkChoiceBlock subs ++ rest) form = (subs.getD form [], rest) := by
  have hblock : mkChoiceBlock subs ++ rest =
      subs.length :: (subs.map List.length ++ (subs.flatten ++ rest)) := by
    simp [mkChoiceBlock]
  rw [hblock]
  unfold parseStringChoice
  simp only [List.headD_cons, List.tail_cons]
  rw [show subs.length = (subs.map List.length).length from (List.length_map _ _).symm,
    choiceLens_encode]
  simp only
  have hsub : subs.drop form = subs.getD form [] :: subs.drop (form + 1) := by
    rw [List.drop_eq_getElem_cons hform]
    rw [List.getD_eq_getElem subs [] hform]
  have hflat : subs.flatten ++ rest =
      (subs.take form).flatten ++
        (subs.getD form [] ++ ((subs.drop (form + 1)).flatten ++ rest)) := by
    conv =>
      lhs
      rw [← List.take_append_drop form subs]
    rw [List.flatten_append, hsub]
    simp [List.append_assoc]
  have htake : (subs.map List.length).take form = (subs.take form).map List.length :=
    (List.map_take ..).symm
  have hdropl : (subs.map List.length).drop (form + 1) =
      (subs.drop (form + 1)).map List.length := (List.map_drop ..).symm
  have hgetD : (subs.map List.length).getD form 0 = (subs.getD form []).length := by
    rw [List.getD_eq_getElem _ 0 (by simpa using hform), List.getElem_map,
      List.getD_eq_getElem subs [] hform]
  rw [htake, hdropl, hgetD, hflat]
  rw [show ((subs.take form).map List.length).sum = (subs.take form).flatten.length from
    (List.length_flatten _).symm]
  rw [List.drop_left]
  rw [show (subs.getD form [] ++ ((subs.drop (form + 1)).flatten ++ rest)).take
      (subs.getD form []).length = subs.getD form [] from List.take_left _ _]
  rw [show (subs.getD form [] ++ ((subs.drop (form + 1)).flatten ++ rest)).drop
      (subs.getD form []).length = (subs.drop (form + 1)).flatten ++ rest from
    List.drop_left _ _]
  rw [show ((subs.drop (form + 1)).map List.length).sum =
      (subs.drop (form + 1)).flatten.length from (List.length_flatten _).symm]
  rw [List.drop_left]


/-- Reading the text slot of a one-slot store under the raw-string code: a
fresh slot or one already claimed as a raw string yields its text and the
claimed type, cursor advanced. The type check is discharged by the branch
structure rather than by evaluating the code point values. -/
theorem getNextParameterString_text_slot (s : List Nat) (ty nt : Nat)
    (h : ty = 0 ∨ ty = SCC_RAW_STRING_POINTER) :
    getNextParameterString (setTypeOfNextParameter
      (⟨[⟨SPData.text s, ty⟩], 0, nt⟩ : StringParameters) SCC_RAW_STRING_POINTER) =
    (.ok s, ⟨[⟨SPData.text s, SCC_RAW_STRING_POINTER⟩], 1, 0⟩) := by
  unfold getNextParameterString getNextParameterReference setTypeOfNextParameter
  try dsimp only
  rw [dif_neg (by simp)]
  try dsimp only
  rcases h with rfl | rfl
  · rw [if_neg (by intro hc; exact hc.1 rfl)]
    rfl
  · rw [if_neg (by intro hc; exact hc.2 rfl)]
    rfl

/-- One loop step on a raw-string code whose parameter read succeeds, the
read result supplied as an equation: the sub-expansion output is appended
and its state threaded. -/
theorem fmtLoopAux_raw_ok {env : FmtEnv}
    {site : Bool → List Nat → FmtState → List Nat × FmtState}
    {n : Nat} {dry gs : Bool} {ref : Nat} {cs out : List Nat} {st : FmtState}
    {s : List Nat} {sp2 : StringParameters}
    (hread : getNextParameterString (setTypeOfNextParameter st.params SCC_RAW_STRING_POINTER) =
      (.ok s, sp2)) :
    fmtLoopAux env site (n + 1) dry gs ref (SCC_RAW_STRING_POINTER :: cs) out st =
      fmtLoopAux env site n dry gs ref cs
        (out ++ (site false s ⟨sp2, st.scan⟩).1) (site false s ⟨sp2, st.scan⟩).2 := by
  rw [fmtLoopAux_raw]
  rw [hread]

/-- One loop step on an in-bounds gender list that does not probe (a dry
pass, or an unclaimed slot): form 0 is parsed and emitted, the next type
mark is left on the store. -/
theorem fmtLoopAux_gender_skip {env : FmtEnv}
    {site : Bool → List Nat → FmtState → List Nat × FmtState}
    {n : Nat} {dry gs : Bool} {ref offs : Nat} {cs1 out : List Nat} {st : FmtState}
    (hlen : ¬(ref + offs ≥
      (setTypeOfNextParameter st.params SCC_GENDER_LIST).parameters.length))
    (hskip : ¬(¬(dry = true) ∧
      getTypeAtOffset (setTypeOfNextParameter st.params SCC_GENDER_LIST) (ref + offs) ≠ 0)) :
    fmtLoopAux env site (n + 1) dry gs ref (SCC_GENDER_LIST :: offs :: cs1) out st =
      fmtLoopAux env site n dry gs ref (parseStringChoice cs1 0).2
        (out ++ (parseStringChoice cs1 0).1)
        ⟨setTypeOfNextParameter st.params SCC_GENDER_LIST, st.scan⟩ := by
  rw [fmtLoopAux_genderList]
  dsimp only [List.headD_cons, List.tail_cons]
  rw [if_neg hlen]
  rw [if_neg hskip]

/-- One real-pass loop step on an in-bounds gender list over a claimed
slot, the probe sub-call result supplied as an equation: the form is read
off the probe output (marker or default 0) and the probed slots are written
back. -/
theorem fmtLoopAux_gender_probe_sel {env : FmtEnv}
    {site : Bool → List Nat → FmtState → List Nat × FmtState}
    {n : Nat} {gs : Bool} {ref offs : Nat} {cs1 out : List Nat} {st : FmtState}
    {probeOut : List Nat} {probeSt : FmtState}
    (hlen : ¬(ref + offs ≥
      (setTypeOfNextParameter st.params SCC_GENDER_LIST).parameters.length))
    (hty : getTypeAtOffset (setTypeOfNextParameter st.params SCC_GENDER_LIST) (ref + offs) ≠ 0)
    (hpr : site false
        [getTypeAtOffset (setTypeOfNextParameter st.params SCC_GENDER_LIST) (ref + offs)]
        ⟨⟨(setTypeOfNextParameter st.params SCC_GENDER_LIST).parameters.drop (ref + offs),
          0, 0⟩, true⟩ = (probeOut, probeSt)) :
    fmtLoopAux env site (n + 1) false gs ref (SCC_GENDER_LIST :: offs :: cs1) out st =
      fmtLoopAux env site n false gs ref
        (parseStringChoice cs1
          (if probeOut.headD 0 = SCC_GENDER_INDEX then probeOut.tail.headD 0 else 0)).2
        (out ++ (parseStringChoice cs1
          (if probeOut.headD 0 = SCC_GENDER_INDEX then probeOut.tail.headD 0 else 0)).1)
        ⟨⟨(setTypeOfNextParameter st.params SCC_GENDER_LIST).parameters.take (ref + offs) ++
            probeSt.params.parameters,
          (setTypeOfNextParameter st.params SCC_GENDER_LIST).offset,
          (setTypeOfNextParameter st.params SCC_GENDER_LIST).next_type⟩, st.scan⟩ := by
  rw [fmtLoopAux_genderList]
  dsimp only [List.headD_cons, List.tail_cons]
  rw [if_neg hlen]
  rw [if_pos (show ¬(false = true) ∧ getTypeAtOffset
      (setTypeOfNextParameter st.params SCC_GENDER_LIST) (ref + offs) ≠ 0 from
    ⟨by simp, hty⟩)]
  rw [hpr]

/-- The nested probe call issued by the gender two-pass mechanism: a real
formatting call on the single-code pseudo-template holding the claimed type
`SCC_RAW_STRING_POINTER` over the sub-store starting at the probed slot,
with the scan flag raised. A literal raw string is emitted unchanged and
carries no leading gender marker. -/
theorem formatStringAux_gender_probe (env : FmtEnv) (d : Nat) (s : List Nat)
    (hlit : ∀ x ∈ s, x < SCC_CONTROL_START) :
    formatStringAux env (d + 2) false false [SCC_RAW_STRING_POINTER]
      ⟨⟨[⟨SPData.text s, SCC_RAW_STRING_POINTER⟩], 0, 0⟩, true⟩ =
      (s, ⟨⟨[⟨SPData.text s, SCC_RAW_STRING_POINTER⟩], 1, 0⟩, true⟩) := by
  have hslit : ∀ st2 : FmtState, formatStringAux env (d + 1) false false s st2 = (s, st2) :=
    fun st2 => formatStringAux_literals env d false false s hlit st2
  have hd : ∀ b : Bool, fmtLoopAux env
      (fun gs2 t2 st2 => formatStringAux env (d + 1) false gs2 t2 st2)
      (([SCC_RAW_STRING_POINTER] : List Nat).length + 1) b false 0
      [SCC_RAW_STRING_POINTER] []
      ⟨⟨[⟨SPData.text s, SCC_RAW_STRING_POINTER⟩], 0, 0⟩, true⟩ =
      (s, ⟨⟨[⟨SPData.text s, SCC_RAW_STRING_POINTER⟩], 1, 0⟩, true⟩) := by
    intro b
    rw [fmtLoopAux_raw_ok
      (getNextParameterString_text_slot s SCC_RAW_STRING_POINTER 0 (Or.inr rfl))]
    dsimp only
    rw [hslit]
    dsimp only
    rw [fmtLoopAux_nil]
    simp
  rw [show d + 2 = (d + 1) + 1 from rfl]
  rw [formatStringAux_real]
  dsimp only
  rw [hd]
  dsimp only
  rw [hd]

/-- The dry pass of the gender template over a fresh text slot: the gender
sub-branch is skipped (form 0 emitted), and the trailing raw-string code
claims the slot type. -/
theorem fmtLoopAux_gender_dry_fresh (env : FmtEnv) (d : Nat) (subs : List (List Nat))
    (s : List Nat) (hsubs : 0 < subs.length) (hlit : ∀ x ∈ s, x < SCC_CONTROL_START) :
    fmtLoopAux env
      (fun gs2 t2 st2 => formatStringAux env (d + 2) false gs2 t2 st2)
      ((SCC_GENDER_LIST :: 0 :: (mkChoiceBlock subs ++ [SCC_RAW_STRING_POINTER])).length + 1)
      true false 0
      (SCC_GENDER_LIST :: 0 :: (mkChoiceBlock subs ++ [SCC_RAW_STRING_POINTER])) []
      ⟨⟨[⟨SPData.text s, 0⟩], 0, 0⟩, false⟩ =
      (subs.getD 0 [] ++ s,
        ⟨⟨[⟨SPData.text s, SCC_RAW_STRING_POINTER⟩], 1, 0⟩, false⟩) := by
  have hslit : ∀ st2 : FmtState, formatStringAux env (d + 2) false false s st2 = (s, st2) :=
    fun st2 => formatStringAux_literals env (d + 1) false false s hlit st2
  have hpsc : parseStringChoice (mkChoiceBlock subs ++ [SCC_RAW_STRING_POINTER]) 0 =
      (subs.getD 0 [], [SCC_RAW_STRING_POINTER]) :=
    parseStringChoice_in_range subs 0 [SCC_RAW_STRING_POINTER] hsubs
  rw [fmtLoopAux_gender_skip (by show ¬(0 + 0 ≥ 1); decide) (fun h => h.1 rfl)]
  rw [hpsc]
  dsimp only [setTypeOfNextParameter]
  rw [show (SCC_GENDER_LIST :: 0 :: (mkChoiceBlock subs ++ [SCC_RAW_STRING_POINTER])).length =
    ((0 :: (mkChoiceBlock subs ++ [SCC_RAW_STRING_POINTER])).length) + 1 from rfl]
  rw [fmtLoopAux_raw_ok (getNextParameterString_text_slot s 0 SCC_GENDER_LIST (Or.inl rfl))]
  dsimp only
  rw [hslit]
  dsimp only
  rw [fmtLoopAux_nil]
  simp

/-- The dry pass of the gender template over a slot already claimed as a raw
string by an earlier identical run: the same output and the same final store
as over a fresh slot. -/
theorem fmtLoopAux_gender_dry_typed (env : FmtEnv) (d : Nat) (subs : List (List Nat))
    (s : List Nat) (hsubs : 0 < subs.length) (hlit : ∀ x ∈ s, x < SCC_CONTROL_START) :
    fmtLoopAux env
      (fun gs2 t2 st2 => formatStringAux env (d + 2) false gs2 t2 st2)
      ((SCC_GENDER_LIST :: 0 :: (mkChoiceBlock subs ++ [SCC_RAW_STRING_POINTER])).length + 1)
      true false 0
      (SCC_GENDER_LIST :: 0 :: (mkChoiceBlock subs ++ [SCC_RAW_STRING_POINTER])) []
      ⟨⟨[⟨SPData.text s, SCC_RAW_STRING_POINTER⟩], 0, 0⟩, false⟩ =
      (subs.getD 0 [] ++ s,
        ⟨⟨[⟨SPData.text s, SCC_RAW_STRING_POINTER⟩], 1, 0⟩, false⟩) := by
  have hslit : ∀ st2 : FmtState, formatStringAux env (d + 2) false false s st2 = (s, st2) :=
    fun st2 => formatStringAux_literals env (d + 1) false false s hlit st2
  have hpsc : parseStringChoice (mkChoiceBlock subs ++ [SCC_RAW_STRING_POINTER]) 0 =
      (subs.getD 0 [], [SCC_RAW_STRING_POINTER]) :=
    parseStringChoice_in_range subs 0 [SCC_RAW_STRING_POINTER] hsubs
  rw [fmtLoopAux_gender_skip (by show ¬(0 + 0 ≥ 1); decide) (fun h => h.1 rfl)]
  rw [hpsc]
  dsimp only [setTypeOfNextParameter]
  rw [show (SCC_GENDER_LIST :: 0 :: (mkChoiceBlock subs ++ [SCC_RAW_STRING_POINTER])).length =
    ((0 :: (mkChoiceBlock subs ++ [SCC_RAW_STRING_POINTER])).length) + 1 from rfl]
  rw [fmtLoopAux_raw_ok
    (getNextParameterString_text_slot s SCC_RAW_STRING_POINTER SCC_GENDER_LIST (Or.inr rfl))]
  dsimp only
  rw [hslit]
  dsimp only
  rw [fmtLoopAux_nil]
  simp

/-- The real pass of the gender template: the slot type was claimed during
the dry pass, so the probe sub-call runs under a raised scan flag; a literal
sub-expansion carries no leading `SCC_GENDER_INDEX` marker, so the gender
defaults to form 0, and the scan flag of the caller stays down. -/
theorem fmtLoopAux_gender_real (env : FmtEnv) (d : Nat) (subs : List (List Nat))
    (s : List Nat) (hsubs : 0 < subs.length) (hlit : ∀ x ∈ s, x < SCC_CONTROL_START) :
    fmtLoopAux env
      (fun gs2 t2 st2 => formatStringAux env (d + 2) false gs2 t2 st2)
      ((SCC_GENDER_LIST :: 0 :: (mkChoiceBlock subs ++ [SCC_RAW_STRING_POINTER])).length + 1)
      false false 0
      (SCC_GENDER_LIST :: 0 :: (mkChoiceBlock subs ++ [SCC_RAW_STRING_POINTER])) []
      ⟨⟨[⟨SPData.text s, SCC_RAW_STRING_POINTER⟩], 0, 0⟩, false⟩ =
      (subs.getD 0 [] ++ s,
        ⟨⟨[⟨SPData.text s, SCC_RAW_STRING_POINTER⟩], 1, 0⟩, false⟩) := by
  have hslit : ∀ st2 : FmtState, formatStringAux env (d + 2) false false s st2 = (s, st2) :=
    fun st2 => formatStringAux_literals env (d + 1) false false s hlit st2
  have hpsc : parseStringChoice (mkChoiceBlock subs ++ [SCC_RAW_STRING_POINTER]) 0 =
      (subs.getD 0 [], [SCC_RAW_STRING_POINTER]) :=
    parseStringChoice_in_range subs 0 [SCC_RAW_STRING_POINTER] hsubs
  have hhead : s.headD 0 ≠ SCC_GENDER_INDEX := by
    cases s with
    | nil => decide
    | cons a as =>
      have hlt := hlit a (by simp)
      rw [List.headD_cons]
      intro h
      rw [h] at hlt
      exact absurd hlt (by decide)
  have hty : getTypeAtOffset (setTypeOfNextParameter
      (⟨[⟨SPData.text s, SCC_RAW_STRING_POINTER⟩], 0, 0⟩ : StringParameters)
      SCC_GENDER_LIST) (0 + 0) ≠ 0 := by
    show SCC_RAW_STRING_POINTER ≠ 0
    decide
  have hpr : formatStringAux env (d + 2) false false
      [getTypeAtOffset (setTypeOfNextParameter
        (⟨[⟨SPData.text s, SCC_RAW_STRING_POINTER⟩], 0, 0⟩ : StringParameters)
        SCC_GENDER_LIST) (0 + 0)]
      ⟨⟨(setTypeOfNextParameter
          (⟨[⟨SPData.text s, SCC_RAW_STRING_POINTER⟩], 0, 0⟩ : StringParameters)
          SCC_GENDER_LIST).parameters.drop (0 + 0), 0, 0⟩, true⟩ =
      (s, ⟨⟨[⟨SPData.text s, SCC_RAW_STRING_POINTER⟩], 1, 0⟩, true⟩) := by
    rw [show [getTypeAtOffset (setTypeOfNextParameter
        (⟨[⟨SPData.text s, SCC_RAW_STRING_POINTER⟩], 0, 0⟩ : StringParameters)
        SCC_GENDER_LIST) (0 + 0)] = [SCC_RAW_STRING_POINTER] from rfl]
    rw [show (setTypeOfNextParameter
        (⟨[⟨SPData.text s, SCC_RAW_STRING_POINTER⟩], 0, 0⟩ : StringParameters)
        SCC_GENDER_LIST).parameters.drop (0 + 0) =
        [(⟨SPData.text s, SCC_RAW_STRING_POINTER⟩ : Slot)] from rfl]
    exact formatStringAux_gender_probe env d s hlit
  rw [fmtLoopAux_gender_probe_sel (by show ¬(0 + 0 ≥ 1); decide) hty hpr]
  rw [if_neg hhead]
  rw [hpsc]
  dsimp only [setTypeOfNextParameter]
  rw [show List.take (0 + 0) [(⟨SPData.text s, SCC_RAW_STRING_POINTER⟩ : Slot)] ++
      [(⟨SPData.text s, SCC_RAW_STRING_POINTER⟩ : Slot)] =
      [(⟨SPData.text s, SCC_RAW_STRING_POINTER⟩ : Slot)] from rfl]
  rw [show (SCC_GENDER_LIST :: 0 :: (mkChoiceBlock subs ++ [SCC_RAW_STRING_POINTER])).length =
    ((0 :: (mkChoiceBlock subs ++ [SCC_RAW_STRING_POINTER])).length) + 1 from rfl]
  rw [fmtLoopAux_raw_ok
    (getNextParameterString_text_slot s SCC_RAW_STRING_POINTER SCC_GENDER_LIST (Or.inr rfl))]
  dsimp only
  rw [hslit]
  dsimp only
  rw [fmtLoopAux_nil]
  simp

/-- C6: on a gender-list template whose target parameter expands to text
with no leading gender marker, `FormatString` deterministically selects
form 0 of the choice list, and the call leaves no observable side effect on
the final text: the caller scan flag comes back down, and re-running the
identical call over the parameter store returned by the first run (cursor
reset, as every fresh call does) produces exactly the same output and the
same final store — the dry-run and gender-probe passes only ever claim the
slot type, which the second run claims identically. -/
theorem gender_default_form0_rerun (env : FmtEnv) (d : Nat) (subs : List (List Nat))
    (s : List Nat) (hsubs : 0 < subs.length) (hlit : ∀ x ∈ s, x < SCC_CONTROL_START) :
    formatStringAux env (d + 3) false false
        (SCC_GENDER_LIST :: 0 :: (mkChoiceBlock subs ++ [SCC_RAW_STRING_POINTER]))
        ⟨initParams [SPData.text s], false⟩ =
      (subs.getD 0 [] ++ s,
        ⟨⟨[⟨SPData.text s, SCC_RAW_STRING_POINTER⟩], 1, 0⟩, false⟩) ∧
    formatStringAux env (d + 3) false false
        (SCC_GENDER_LIST :: 0 :: (mkChoiceBlock subs ++ [SCC_RAW_STRING_POINTER]))
        ⟨⟨[⟨SPData.text s, SCC_RAW_STRING_POINTER⟩], 0, 0⟩, false⟩ =
      (subs.getD 0 [] ++ s,
        ⟨⟨[⟨SPData.text s, SCC_RAW_STRING_POINTER⟩], 1, 0⟩, false⟩) := by
  constructor
  · rw [show d + 3 = (d + 2) + 1 from rfl]
    rw [formatStringAux_real]
    dsimp only [initParams, initSlot, List.map]
    rw [fmtLoopAux_gender_dry_fresh env d subs s hsubs hlit]
    dsimp only
    rw [fmtLoopAux_gender_real env d subs s hsubs hlit]
  · rw [show d + 3 = (d + 2) + 1 from rfl]
    rw [formatStringAux_real]
    dsimp only
    rw [fmtLoopAux_gender_dry_typed env d subs s hsubs hlit]
    dsimp only
    rw [fmtLoopAux_gender_real env d subs s hsubs hlit]

/-- Witness for C6: two gender forms, the first selected by default; the
sub-expansion is plain text; the rerun over the claimed store agrees. -/
theorem gender_default_form0_rerun_witness :
    (0 < ([[77], [70]] : List (List Nat)).length ∧
      ∀ x ∈ ([111, 107] : List Nat), x < SCC_CONTROL_START) ∧
    (formatStringAux demoEnv (0 + 3) false false
        (SCC_GENDER_LIST :: 0 :: (mkChoiceBlock [[77], [70]] ++ [SCC_RAW_STRING_POINTER]))
        ⟨initParams [SPData.text [111, 107]], false⟩ =
      (([[77], [70]] : List (List Nat)).getD 0 [] ++ [111, 107],
        ⟨⟨[⟨SPData.text [111, 107], SCC_RAW_STRING_POINTER⟩], 1, 0⟩, false⟩) ∧
    formatStringAux demoEnv (0 + 3) false false
        (SCC_GENDER_LIST :: 0 :: (mkChoiceBlock [[77], [70]] ++ [SCC_RAW_STRING_POINTER]))
        ⟨⟨[⟨SPData.text [111, 107], SCC_RAW_STRING_POINTER⟩], 0, 0⟩, false⟩ =
      (([[77], [70]] : List (List Nat)).getD 0 [] ++ [111, 107],
        ⟨⟨[⟨SPData.text [111, 107], SCC_RAW_STRING_POINTER⟩], 1, 0⟩, false⟩)) :=
  ⟨⟨by decide, by decide⟩,
    gender_default_form0_rerun demoEnv 0 [[77], [70]] [111, 107] (by decide) (by decide)⟩

end Strings
